import Mathlib

/-!
# k8s-internal-loadbalancer: circuit breaker

Shallow embedding of `pkg/circuitbreaker/breaker.go`.

Conventions of the embedding:

* `uint32` fields are `Nat` and every `++` on them is written `(x + 1) % 4294967296`;
  the `uint64` generation is `Nat` with `(g + 1) % 18446744073709551616`.
* `time.Time` is an `Int`: nanoseconds counted from the zero `time.Time`, so
  `t.IsZero()` is `t = 0`, `a.Before(b)` is `a < b` and `t.Add(d)` is `t + d`.
  `time.Duration` is an `Int` number of nanoseconds (it may be negative, as in Go).
* The mutex is not modelled: every function below is one critical section of the
  source, and each takes the value `time.Now()` read inside it as the argument `now`.
* The argument `req func() error` of `Execute` is a transformer of an abstract world
  `W`; the world that comes back tells whether (and how often) the operation ran.
-/

namespace circuitbreaker

/-- State represents the circuit breaker state (`StateClosed = 0`, `StateHalfOpen = 1`,
`StateOpen = 2`). -/
inductive State where
  | StateClosed
  | StateHalfOpen
  | StateOpen
  deriving DecidableEq, Repr

/-- The method `func (s State) String() string`. -/
def State.String : State → String
  | .StateClosed => "closed"
  | .StateHalfOpen => "half-open"
  | .StateOpen => "open"

/-- The struct `counts`: five `uint32` counters. -/
structure counts where
  requests : Nat := 0
  totalSuccesses : Nat := 0
  totalFailures : Nat := 0
  consecutiveSuccesses : Nat := 0
  consecutiveFailures : Nat := 0
  deriving DecidableEq, Repr

/-- The struct `CircuitBreaker` without its mutex. The Go field `counts` is a pointer
to a record that only the breaker holds, so it is embedded by value. -/
structure CircuitBreaker where
  maxRequests : Nat
  interval : Int
  timeout : Int
  consecutiveFailures : Nat
  state : State
  generation : Nat
  counts : circuitbreaker.counts
  expiry : Int
  deriving DecidableEq, Repr

/-- The values a `uint32` / `uint64` field can hold. -/
def CircuitBreaker.wellTyped (cb : CircuitBreaker) : Prop :=
  cb.maxRequests < 4294967296 ∧ cb.consecutiveFailures < 4294967296 ∧
  cb.generation < 18446744073709551616 ∧
  cb.counts.requests < 4294967296 ∧ cb.counts.totalSuccesses < 4294967296 ∧
  cb.counts.totalFailures < 4294967296 ∧ cb.counts.consecutiveSuccesses < 4294967296 ∧
  cb.counts.consecutiveFailures < 4294967296

instance (cb : CircuitBreaker) : Decidable cb.wellTyped := by
  unfold CircuitBreaker.wellTyped; infer_instance

/-- toNewGeneration starts a new generation: `generation++`, fresh zero counts, and the
expiry that belongs to the state the breaker is in. -/
def toNewGeneration (cb : CircuitBreaker) (now : Int) : CircuitBreaker :=
  { cb with
    generation := (cb.generation + 1) % 18446744073709551616
    counts := {}
    expiry :=
      match cb.state with
      | .StateClosed => if cb.interval = 0 then 0 else now + cb.interval
      | .StateOpen => now + cb.timeout
      | .StateHalfOpen => 0 }

/-- setState transitions to a new state; a no-op when the state is already `state`. -/
def setState (cb : CircuitBreaker) (state : State) (now : Int) : CircuitBreaker :=
  if cb.state = state then cb
  else toNewGeneration { cb with state := state } now

/-- New creates a new CircuitBreaker: the zero struct (state `StateClosed`, generation 0,
zero expiry) with the four configuration values, then `toNewGeneration(time.Now())`. -/
def New (maxRequests : Nat) (interval timeout : Int) (consecutiveFailures : Nat)
    (now : Int) : CircuitBreaker :=
  toNewGeneration
    { maxRequests := maxRequests, interval := interval, timeout := timeout,
      consecutiveFailures := consecutiveFailures, state := .StateClosed,
      generation := 0, counts := {}, expiry := 0 } now

/-- The mutation `currentState(now)` performs on the breaker: a Closed breaker whose
non-zero expiry lies before `now` starts a new generation, an Open breaker whose expiry
lies before `now` becomes Half-Open. -/
def currentStateCB (cb : CircuitBreaker) (now : Int) : CircuitBreaker :=
  match cb.state with
  | .StateClosed =>
    if ¬ (cb.expiry = 0) ∧ cb.expiry < now then toNewGeneration cb now else cb
  | .StateOpen =>
    if cb.expiry < now then setState cb .StateHalfOpen now else cb
  | .StateHalfOpen => cb

/-- The function `currentState(now)`: the breaker after the lazy evaluation together with
the pair `(cb.state, cb.generation)` it returns. -/
def currentState (cb : CircuitBreaker) (now : Int) : CircuitBreaker × State × Nat :=
  let cb1 := currentStateCB cb now
  (cb1, cb1.state, cb1.generation)

/-- beforeRequest checks if the request should be allowed. It returns the breaker after
the call, the generation, and the error (`none` is Go's `nil`). -/
def beforeRequest (cb : CircuitBreaker) (now : Int) : CircuitBreaker × Nat × Option String :=
  let (cb1, state, generation) := currentState cb now
  if state = .StateOpen then
    (cb1, generation, some "circuit breaker is open")
  else if state = .StateHalfOpen ∧ cb1.counts.requests ≥ cb1.maxRequests then
    (cb1, generation, some "circuit breaker is half-open and max requests reached")
  else
    ({ cb1 with counts := { cb1.counts with requests := (cb1.counts.requests + 1) % 4294967296 } },
      generation, none)

/-- onSuccess handles a successful request. -/
def onSuccess (cb : CircuitBreaker) (state : State) (now : Int) : CircuitBreaker :=
  let cb1 : CircuitBreaker :=
    { cb with counts :=
      { cb.counts with
        totalSuccesses := (cb.counts.totalSuccesses + 1) % 4294967296
        consecutiveSuccesses := (cb.counts.consecutiveSuccesses + 1) % 4294967296
        consecutiveFailures := 0 } }
  if state = .StateHalfOpen then
    if cb1.counts.consecutiveSuccesses ≥ cb1.maxRequests then
      setState cb1 .StateClosed now
    else cb1
  else cb1

/-- onFailure handles a failed request. -/
def onFailure (cb : CircuitBreaker) (state : State) (now : Int) : CircuitBreaker :=
  let cb1 : CircuitBreaker :=
    { cb with counts :=
      { cb.counts with
        totalFailures := (cb.counts.totalFailures + 1) % 4294967296
        consecutiveFailures := (cb.counts.consecutiveFailures + 1) % 4294967296
        consecutiveSuccesses := 0 } }
  if state = .StateClosed ∧ cb1.counts.consecutiveFailures ≥ cb1.consecutiveFailures then
    setState cb1 .StateOpen now
  else if state = .StateHalfOpen then
    setState cb1 .StateOpen now
  else cb1

/-- afterRequest records the result of a request admitted in generation `before`. -/
def afterRequest (cb : CircuitBreaker) (now : Int) (before : Nat) (success : Bool) :
    CircuitBreaker :=
  let (cb1, state, generation) := currentState cb now
  if generation ≠ before then cb1
  else if success then onSuccess cb1 state now
  else onFailure cb1 state now

/-- What a call `req()` does: it returns an `error` (`none` is `nil`) or it panics. -/
inductive Outcome (E : Type) where
  | returns (err : Option E)
  | panics
  deriving DecidableEq, Repr

/-- The `error` that `Execute` hands back: a value made by `fmt.Errorf` inside
`beforeRequest`, or the value `req()` returned. -/
inductive Error (E : Type) where
  | errorf (msg : String)
  | ofReq (e : E)
  deriving DecidableEq, Repr

/-- The result of one `Execute` call: the breaker afterwards, the returned error
(`none` is `nil`), whether the call ended by re-raising a panic of `req`, and the world
after the call. -/
structure Executed (E W : Type) where
  cb : CircuitBreaker
  err : Option (Error E)
  panicked : Bool
  world : W

/-- Execute runs the given function with circuit breaker protection. `t1` is the clock
read in `beforeRequest`, `t2` the clock read in `afterRequest`; no other caller touches
the breaker in between. -/
def Execute {E W : Type} (cb : CircuitBreaker) (t1 t2 : Int)
    (req : W → Outcome E × W) (w : W) : Executed E W :=
  match beforeRequest cb t1 with
  | (cb1, _, some msg) => { cb := cb1, err := some (.errorf msg), panicked := false, world := w }
  | (cb1, generation, none) =>
    match req w with
    | (.panics, w1) =>
      { cb := afterRequest cb1 t2 generation false, err := none, panicked := true, world := w1 }
    | (.returns err, w1) =>
      { cb := afterRequest cb1 t2 generation err.isNone,
        err := err.map .ofReq, panicked := false, world := w1 }

/-- The method `State()`: the stored state as a string; it does not call
`currentState`. -/
def CircuitBreaker.State (cb : CircuitBreaker) : String :=
  cb.state.String

/-- The map returned by `Stats()`, one field per key. -/
structure StatsMap where
  state : String
  requests : Nat
  total_successes : Nat
  total_failures : Nat
  consecutive_successes : Nat
  consecutive_failures : Nat
  deriving DecidableEq, Repr

/-- Stats returns the current statistics. -/
def CircuitBreaker.Stats (cb : CircuitBreaker) : StatsMap :=
  { state := cb.state.String
    requests := cb.counts.requests
    total_successes := cb.counts.totalSuccesses
    total_failures := cb.counts.totalFailures
    consecutive_successes := cb.counts.consecutiveSuccesses
    consecutive_failures := cb.counts.consecutiveFailures }

/-- One call of a sequential run: the clock read in `beforeRequest`, the clock read in
`afterRequest`, and the operation handed to `Execute`. -/
structure Call (E W : Type) where
  t1 : Int
  t2 : Int
  req : W → Outcome E × W

/-- A sequence of `Execute` calls made one after another on the same breaker, each
starting after the previous one returned. -/
def ExecuteAll {E W : Type} (cb : CircuitBreaker) (calls : List (Call E W)) (w : W) :
    CircuitBreaker × W :=
  calls.foldl (fun p c => ((Execute p.1 c.t1 c.t2 c.req p.2).cb, (Execute p.1 c.t1 c.t2 c.req p.2).world))
    (cb, w)

/-- The clock reading `now` does not roll the Closed window over: the expiry is zero
(no window) or does not lie before `now`. -/
def noRollover (cb : CircuitBreaker) (now : Int) : Prop :=
  cb.expiry = 0 ∨ ¬ cb.expiry < now

instance (cb : CircuitBreaker) (now : Int) : Decidable (noRollover cb now) := by
  unfold noRollover; infer_instance

/-- An operation that returns a non-nil error in every world. -/
def failing {E W : Type} (req : W → Outcome E × W) : Prop :=
  ∀ w, ∃ e, (req w).1 = .returns (some e)

/-- An operation that returns nil in every world. -/
def succeeding {E W : Type} (req : W → Outcome E × W) : Prop :=
  ∀ w, (req w).1 = .returns none

/-- The breaker after an admitted call was counted: `cb.counts.requests++`. -/
def admitted (cb : CircuitBreaker) : CircuitBreaker :=
  { cb with counts := { cb.counts with requests := (cb.counts.requests + 1) % 4294967296 } }

/-- Example operation on a counter world: returns the error "test error" and counts the
invocation. -/
def failFunc : Nat → Outcome String × Nat := fun n => (.returns (some "test error"), n + 1)

/-- Example operation on a counter world: returns nil and counts the invocation. -/
def successFunc : Nat → Outcome String × Nat := fun n => (.returns none, n + 1)

/-- The Half-Open breaker that the lazy evaluation makes of an Open one. -/
def halfOpened (cb : CircuitBreaker) : CircuitBreaker :=
  { cb with state := .StateHalfOpen, generation := (cb.generation + 1) % 18446744073709551616,
            counts := {}, expiry := 0 }

/-- The breaker `New(3, 1s, 1s, 2)` once it has tripped at clock `b2` in its first Closed
generation. -/
def scenarioOpen (b2 : Int) : CircuitBreaker :=
  { maxRequests := 3, interval := 1000000000, timeout := 1000000000,
    consecutiveFailures := 2, state := .StateOpen, generation := 2, counts := {},
    expiry := b2 + 1000000000 }

/-- One critical section run by some caller: `request` is a call of `beforeRequest` at clock
`now`, `record` is a call of `afterRequest` at clock `now` for a call that was admitted in
generation `before`. A history is any list of events: calls may be admitted before earlier
ones are recorded. -/
inductive Event where
  | request (now : Int)
  | record (now : Int) (before : Nat) (success : Bool)
  deriving DecidableEq, Repr

/-- The breaker after one event. -/
def step (cb : CircuitBreaker) : Event → CircuitBreaker
  | .request now => (beforeRequest cb now).1
  | .record now before success => afterRequest cb now before success

/-- The breaker after a history. -/
def run (cb : CircuitBreaker) (es : List Event) : CircuitBreaker :=
  es.foldl step cb

/-- Bookkeeping beside the breaker: the number of calls admitted since the current
generation began. An event that changes the generation restarts the count; a `request`
that returns no error adds one. -/
def stepAdmitted (cb : CircuitBreaker) (n : Nat) (e : Event) : Nat :=
  let kept := if (step cb e).generation = cb.generation then n else 0
  match e with
  | .request now => if (beforeRequest cb now).2.2 = none then kept + 1 else kept
  | .record _ _ _ => kept

/-- The breaker after a history together with the number of calls admitted in its current
generation. -/
def runAdmitted (cb : CircuitBreaker) (n : Nat) : List Event → CircuitBreaker × Nat
  | [] => (cb, n)
  | e :: es => runAdmitted (step cb e) (stepAdmitted cb n e) es

/-- The Half-Open quota invariant: in Half-Open the request count is the number of calls
admitted in this generation and does not exceed `maxRequests`. -/
def quotaInv (cb : CircuitBreaker) (n : Nat) : Prop :=
  cb.state = .StateHalfOpen → cb.counts.requests = n ∧ n ≤ cb.maxRequests

/-- A Closed breaker with threshold 1 and no window whose generation counter stands at the
largest uint64. -/
def lastGeneration : CircuitBreaker :=
  { maxRequests := 1, interval := 0, timeout := 1000000000, consecutiveFailures := 1,
    state := .StateClosed, generation := 18446744073709551615, counts := {}, expiry := 0 }

/-- The results of the `Execute` calls of a sequential run, in call order. -/
def ExecuteLog {E W : Type} (cb : CircuitBreaker) : List (Call E W) → W → List (Executed E W)
  | [], _ => []
  | c :: cs, w =>
    Execute cb c.t1 c.t2 c.req w ::
      ExecuteLog (Execute cb c.t1 c.t2 c.req w).cb cs (Execute cb c.t1 c.t2 c.req w).world

/-- The call returned nil: Execute returned, and returned no error. -/
def Executed.returnedNil {E W : Type} (r : Executed E W) : Bool :=
  r.err.isNone && !r.panicked

/-- The call returned the error of its operation. -/
def Executed.returnedError {E W : Type} (r : Executed E W) : Bool :=
  match r.err with
  | some (.ofReq _) => true
  | _ => false

/-- A Closed breaker with no window (interval 0) whose counters stand at the largest
uint32, as New(1, 0, 1s, 1) is after 4294967295 successful calls. -/
def fullCounts : CircuitBreaker :=
  { maxRequests := 1, interval := 0, timeout := 1000000000, consecutiveFailures := 1,
    state := .StateClosed, generation := 1,
    counts := { requests := 4294967295, totalSuccesses := 4294967295, totalFailures := 0,
                consecutiveSuccesses := 4294967295, consecutiveFailures := 0 },
    expiry := 0 }

end circuitbreaker

/-!
# Pod discovery

Shallow embedding of `pkg/podwatcher/watcher.go`: `extractBackends`, `equal` and the
critical section of `updateBackendList`. The cluster API is outside the repository: the
answer of `Pods(namespace).List` is an argument. A Go `[]string` is a `List String`
(a nil slice and an empty slice are both `[]`), and the buffered channel
`backendsChan` is the list of values waiting in it.
-/

namespace podwatcher

/-- The two fields of `corev1.Pod` that the watcher reads: `Status.Phase` and
`Status.PodIP`. -/
structure Pod where
  Phase : String
  PodIP : String
  deriving DecidableEq, Repr

/-- The constant `corev1.PodRunning`. -/
def PodRunning : String := "Running"

/-- The call `fmt.Sprintf("%s:%d", ip, port)`. -/
def sprintfBackend (ip : String) (port : Int) : String :=
  ip ++ ":" ++ toString port

/-- extractBackends extracts backend addresses from pod list: the loop appends one
address for every pod that is Running and has a non-empty pod IP. -/
def extractBackends (backendPort : Int) (pods : List Pod) : List String :=
  pods.foldl
    (fun backends pod =>
      if pod.Phase = PodRunning ∧ pod.PodIP ≠ "" then
        backends ++ [sprintfBackend pod.PodIP backendPort]
      else backends)
    []

/-- Go's `<=` on strings. Go compares the UTF-8 bytes lexicographically, which orders
strings as the lexicographic order of their code points does. -/
def stringLE (a b : String) : Prop :=
  a.toList ≤ b.toList

instance : DecidableRel stringLE :=
  fun a b => inferInstanceAs (Decidable (a.toList ≤ b.toList))

instance : IsTotal String stringLE := ⟨fun a b => le_total a.toList b.toList⟩

instance : IsTrans String stringLE := ⟨fun _ _ _ h1 h2 => le_trans h1 h2⟩

instance : IsAntisymm String stringLE :=
  ⟨fun _ _ h1 h2 => String.ext (le_antisymm h1 h2)⟩

/-- The library call `sort.Strings(x)`: it leaves `x` sorted in increasing order. Equal
strings are indistinguishable, so the result is the one sorted rearrangement of `x`,
whatever algorithm the library runs; insertion sort computes it here. -/
def sortStrings (x : List String) : List String :=
  x.insertionSort stringLE

/-- The loop of `equal` from index `0` on, for slices of the same length. -/
def equalLoop : List String → List String → Bool
  | a :: as, b :: bs => if a ≠ b then false else equalLoop as bs
  | _, _ => true

/-- equal compares two string slices (assumes both are sorted). -/
def equal (a b : List String) : Bool :=
  if a.length ≠ b.length then false
  else equalLoop a b

/-- The fields of `Watcher` that `updateBackendList` reads or writes. `backendsChan`
holds the values sent and not yet received; its capacity is the 10 of `New`. -/
structure Watcher where
  backendPort : Int
  lastBackends : List String
  backendsChan : List (List String)
  deriving DecidableEq, Repr

/-- The capacity of `backendsChan`: `make(chan []string, 10)`. -/
def backendsChanCap : Nat := 10

/-- New creates a new pod watcher: no previous backends and an empty channel. -/
def New (backendPort : Int) : Watcher :=
  { backendPort := backendPort, lastBackends := [], backendsChan := [] }

/-- What one call of `updateBackendList` did: the watcher afterwards, the returned error
(`none` is `nil`), the slice it sent on `backendsChan` if it sent one, and whether it
took the `default` branch of the `select` (channel full, update skipped). -/
structure Updated where
  watcher : Watcher
  err : Option String
  sent : Option (List String)
  skipped : Bool
  deriving DecidableEq, Repr

/-- updateBackendList fetches the current pod list and updates backends if changed.
`listed` is the answer of the cluster API to the `List` call. -/
def updateBackendList (w : Watcher) (listed : Except String (List Pod)) : Updated :=
  match listed with
  | .error e =>
    { watcher := w, err := some ("failed to list pods: " ++ e), sent := none, skipped := false }
  | .ok pods =>
    let backends := sortStrings (extractBackends w.backendPort pods)
    let last := sortStrings w.lastBackends
    if ¬ (equal backends last = true) then
      if w.backendsChan.length < backendsChanCap then
        { watcher := { w with lastBackends := backends,
                              backendsChan := w.backendsChan ++ [backends] },
          err := none, sent := some backends, skipped := false }
      else
        { watcher := { w with lastBackends := backends },
          err := none, sent := none, skipped := true }
    else
      { watcher := { w with lastBackends := last }, err := none, sent := none,
        skipped := false }

/-- The number of values a list of calls sent on `backendsChan`. -/
def emissions (rs : List Updated) : Nat :=
  (rs.filter (fun r => r.sent.isSome)).length

end podwatcher

/-!
# Publishing to the proxy

Shallow embedding of `pkg/traefik/backend.go`. The HTTP client and `encoding/json` are
outside the repository: what `json.Marshal`, `http.NewRequestWithContext` and
`client.Do` answer during one call is the argument `Env`. The configuration built from Go
maps and slices is a `Value` tree; the body of the PUT is that tree.
-/

namespace traefik

/-- A value built from Go strings, slices and maps with string keys, as
`updateBackendsInternal` builds them; a map is the list of its entries. -/
inductive Value where
  | str (s : String)
  | arr (items : List Value)
  | obj (entries : List (String × Value))

/-- The fields of `Backend` (the HTTP client is part of `Env`). -/
structure Backend where
  apiURL : String
  routerName : String
  serviceName : String
  lbMethod : String
  circuitBreaker : circuitbreaker.CircuitBreaker

/-- An `http.Request` as the two methods build it. -/
structure Request where
  method : String
  url : String
  header : List (String × String)
  body : Option Value

/-- The two parts of an `http.Response` that are read: `StatusCode` and what
`io.ReadAll(resp.Body)` returns. -/
structure Response where
  StatusCode : Int
  Body : String

/-- The answers of the library calls during one call: the error of `json.Marshal`, the
error of `http.NewRequestWithContext` (`none` is `nil`), and the result of
`client.Do(req)`, a transport error or a response. -/
structure Env where
  marshalErr : Option String
  newRequestErr : Option String
  Do : Request → Except String Response

/-- The loop that builds `servers`: one map `{"address": backend}` per backend, appended
to the empty, non-nil slice `make([]map[string]string, 0, len(backends))`. -/
def buildServers (backends : List String) : List Value :=
  backends.foldl (fun servers backend => servers ++ [Value.obj [("address", .str backend)]]) []

/-- The map `config` built by `updateBackendsInternal`. -/
def buildConfig (b : Backend) (backends : List String) : Value :=
  .obj [("tcp", .obj [
    ("routers", .obj [
      (b.routerName, .obj [
        ("entryPoints", .arr [.str "tcp"]),
        ("rule", .str "HostSNI(`*`)"),
        ("service", .str b.serviceName)])]),
    ("services", .obj [
      (b.serviceName, .obj [
        ("loadBalancer", .obj [
          ("method", .str b.lbMethod),
          ("servers", .arr (buildServers backends))])])])])]

/-- The PUT request of `updateBackendsInternal`. -/
def putRequest (b : Backend) (backends : List String) : Request :=
  { method := "PUT", url := b.apiURL, header := [("Content-Type", "application/json")],
    body := some (buildConfig b backends) }

/-- updateBackendsInternal performs the actual backend update; the result is the
returned error, `none` for `nil`. -/
def updateBackendsInternal (b : Backend) (backends : List String) (env : Env) :
    Option String :=
  match env.marshalErr with
  | some e => some ("failed to marshal config: " ++ e)
  | none =>
    match env.newRequestErr with
    | some e => some ("failed to create request: " ++ e)
    | none =>
      match env.Do (putRequest b backends) with
      | .error e => some ("failed to send request: " ++ e)
      | .ok resp =>
        if resp.StatusCode ≠ 200 ∧ resp.StatusCode ≠ 201 then
          some ("unexpected status code " ++ toString resp.StatusCode ++ ": " ++ resp.Body)
        else none

/-- What `UpdateBackends` did: the backend afterwards (its breaker has changed), the
returned error, and the number of runs of `updateBackendsInternal` so far. -/
structure Published where
  backend : Backend
  err : Option (circuitbreaker.Error String)
  calls : Nat

/-- UpdateBackends updates the Traefik backend servers: `updateBackendsInternal` run
through `circuitBreaker.Execute`. `t1` and `t2` are the two clock readings of `Execute`,
`calls` counts the runs of `updateBackendsInternal`. -/
def UpdateBackends (b : Backend) (backends : List String) (env : Env) (t1 t2 : Int)
    (calls : Nat) : Published :=
  let r := circuitbreaker.Execute b.circuitBreaker t1 t2
    (fun n => (circuitbreaker.Outcome.returns (updateBackendsInternal b backends env), n + 1))
    calls
  { backend := { b with circuitBreaker := r.cb }, err := r.err, calls := r.world }

/-- The GET request of `HealthCheck`. -/
def getRequest (b : Backend) : Request :=
  { method := "GET", url := b.apiURL, header := [], body := none }

/-- HealthCheck checks if Traefik API is accessible. It returns the backend as it leaves
it together with the returned error (`none` is `nil`). -/
def HealthCheck (b : Backend) (env : Env) : Backend × Option String :=
  match env.newRequestErr with
  | some e => (b, some ("failed to create health check request: " ++ e))
  | none =>
    match env.Do (getRequest b) with
    | .error e => (b, some ("health check failed: " ++ e))
    | .ok resp =>
      if resp.StatusCode ≠ 200 ∧ resp.StatusCode ≠ 405 then
        (b, some ("health check returned status " ++ toString resp.StatusCode))
      else (b, none)

/-- Reading a document of the documented shape back: the entry of a map under a key. -/
def Value.get (k : String) : Value → Option Value
  | .obj entries => entries.lookup k
  | _ => none

/-- Reading back the address of one entry of `servers`. -/
def Value.address : Value → Option String
  | .obj [("address", .str a)] => some a
  | _ => none

/-- Reading the server list back from a document of the documented shape:
`tcp.services.<serviceName>.loadBalancer.servers`. -/
def Value.servers (doc : Value) (serviceName : String) : Option (List Value) :=
  match (((((doc.get "tcp").bind (Value.get "services")).bind (Value.get serviceName)).bind
      (Value.get "loadBalancer")).bind (Value.get "servers")) with
  | some (.arr items) => some items
  | _ => none

/-- Reading the addresses of a server list back, entry by entry. -/
def addressList : List Value → Option (List String)
  | [] => some []
  | v :: vs =>
    match v.address, addressList vs with
    | some a, some as => some (a :: as)
    | _, _ => none

/-- Reading the addresses back from a document of the documented shape. -/
def Value.addresses (doc : Value) (serviceName : String) : Option (List String) :=
  (doc.servers serviceName).bind addressList

/-- The publisher built from the default configuration, with a breaker
New(5, 1m, 30s, 5) created at clock 0. -/
def exampleBackend : Backend :=
  { apiURL := "http://traefik:8080/api/providers/rest", routerName := "relay-router",
    serviceName := "relay-service", lbMethod := "leastconn",
    circuitBreaker := circuitbreaker.New 5 60000000000 30000000000 5 0 }

/-- A proxy that answers every request with the given status code and body. -/
def answering (code : Int) (body : String) : Env :=
  { marshalErr := none, newRequestErr := none,
    Do := fun _ => .ok { StatusCode := code, Body := body } }

end traefik

/-!
# Configuration

Shallow embedding of `Config.Validate` of `pkg/config/config.go`.
-/

namespace config

/-- Config holds the application configuration. `time.Duration` values are `Int`
nanoseconds, the Go `int` ports are `Int`. -/
structure Config where
  PodLabels : String
  PodNamespace : String
  TraefikAPIURL : String
  LoadBalancerMethod : String
  RouterName : String
  ServiceName : String
  HealthCheckPath : String
  LogLevel : String
  LogFormat : String
  Version : String
  BuildTime : String
  VCSRef : String
  UpdateInterval : Int
  CBInterval : Int
  CBTimeout : Int
  BackendPort : Int
  HealthCheckPort : Int
  CBMaxRequests : Nat
  CBConsecutiveFailures : Nat
  UseWatch : Bool

/-- The constant `time.Second` in nanoseconds. -/
def Second : Int := 1000000000

/-- Validate checks if the configuration is valid; the result is the returned error,
`none` for `nil`. -/
def Config.Validate (c : Config) : Option String :=
  if c.PodLabels = "" then some "PodLabels is required"
  else if c.TraefikAPIURL = "" then some "TraefikAPIURL is required"
  else if c.PodNamespace = "" then some "PodNamespace is required"
  else if c.BackendPort < 1 ∨ c.BackendPort > 65535 then
    some "BackendPort must be between 1 and 65535"
  else if c.UpdateInterval < Second then some "UpdateInterval must be at least 1 second"
  else none

end config

namespace podwatcher

/-- The kinds of `watch.Event` of the Kubernetes client library: the constants `Added`,
`Modified`, `Deleted`, `Bookmark` and `Error` of `watch.EventType`. -/
inductive EventType where
  | Added
  | Modified
  | Deleted
  | Bookmark
  | Error
  deriving DecidableEq, Repr

/-- What one call of `handleWatchEvent` did: the watcher afterwards, the number of calls
of `updateBackendList` it made, the error it sent on `errorChan` if any, the slice sent on
`backendsChan` if any, and whether it logged "Received error event from watch". -/
structure Handled where
  watcher : Watcher
  relists : Nat
  errSent : Option String
  sent : Option (List String)
  loggedErrorEvent : Bool
  deriving DecidableEq, Repr

/-- handleWatchEvent processes a watch event. `listed` is what the cluster API would
answer to a `List` call made now. -/
def handleWatchEvent (w : Watcher) (eventType : EventType)
    (listed : Except String (List Pod)) : Handled :=
  match eventType with
  | .Added | .Modified | .Deleted =>
    { watcher := (updateBackendList w listed).watcher, relists := 1,
      errSent := (updateBackendList w listed).err,
      sent := (updateBackendList w listed).sent, loggedErrorEvent := false }
  | .Error =>
    { watcher := w, relists := 0, errSent := none, sent := none, loggedErrorEvent := true }
  | .Bookmark =>
    { watcher := w, relists := 0, errSent := none, sent := none, loggedErrorEvent := false }

end podwatcher

namespace circuitbreaker

/-- The outcomes that a history records, in order: `true` for a success. -/
def outcomes : List Event → List Bool
  | [] => []
  | .request _ :: es => outcomes es
  | .record _ _ success :: es => success :: outcomes es

/-- The event belongs to the Closed window whose expiry is `expiry` and whose generation
is `g`: its clock reading does not roll the window over, and a recorded outcome is that
of a call admitted in generation `g`. -/
def Event.inWindow (expiry : Int) (g : Nat) : Event → Prop
  | .request now => expiry = 0 ∨ ¬ expiry < now
  | .record now before _ => (expiry = 0 ∨ ¬ expiry < now) ∧ before = g

instance (expiry : Int) (g : Nat) (e : Event) : Decidable (e.inWindow expiry g) := by
  cases e <;> unfold Event.inWindow <;> infer_instance

/-- The sequence of outcomes contains a run of `n` failures in a row. -/
def hasFailureRun (n : Nat) (bs : List Bool) : Prop :=
  ∃ s t, bs = s ++ List.replicate n false ++ t

/-- The breaker has left the Closed generation `g` by a trip: it is Open in the next
generation, or Half-Open in the one after. -/
def tripped (g : Nat) (cb : CircuitBreaker) : Prop :=
  (cb.state = .StateOpen ∧ cb.generation = (g + 1) % 18446744073709551616) ∨
  (cb.state = .StateHalfOpen ∧ cb.generation = (g + 2) % 18446744073709551616)

/-- No `++` of the next critical section can wrap: the request count is below the largest
uint32 and the generation leaves room for two increments. In such a state the machine
integers behave as natural numbers. -/
def noOverflow (cb : CircuitBreaker) : Prop :=
  cb.counts.requests < 4294967295 ∧ cb.generation < 18446744073709551614

instance (cb : CircuitBreaker) : Decidable (noOverflow cb) := by
  unfold noOverflow; infer_instance

/-- One step of a history in which every recorded outcome belongs to a call that was
admitted and has not been recorded yet. `inFlight` lists the generations returned to the
calls that are admitted and not yet recorded. A `request` that is admitted adds its
generation, a rejected one adds nothing; a `record` needs its generation among the calls
in flight and removes it. -/
def trackedStep (cb : CircuitBreaker) (inFlight : List Nat) :
    Event → Option (CircuitBreaker × List Nat)
  | .request now =>
    if (beforeRequest cb now).2.2 = none then
      some ((beforeRequest cb now).1, (beforeRequest cb now).2.1 :: inFlight)
    else some ((beforeRequest cb now).1, inFlight)
  | .record now before success =>
    if before ∈ inFlight then
      some (afterRequest cb now before success, inFlight.erase before)
    else none

/-- A whole history of such steps, each starting in a state where nothing can wrap; the
result is the breaker and the calls in flight at the end, or `none` when the history
records an outcome of no call in flight or meets a state about to wrap. -/
def tracked (cb : CircuitBreaker) (inFlight : List Nat) :
    List Event → Option (CircuitBreaker × List Nat)
  | [] => some (cb, inFlight)
  | e :: es =>
    if noOverflow cb then
      match trackedStep cb inFlight e with
      | some p => tracked p.1 p.2 es
      | none => none
    else none

/-- The invariant of the counts together with the calls in flight: the recorded outcomes
and the calls of the current generation still in flight are covered by the request count,
consecutive counts do not exceed totals, one of the two consecutive counts is zero, and no
call in flight carries a generation later than the current one. -/
def countsInv (cb : CircuitBreaker) (inFlight : List Nat) : Prop :=
  cb.counts.totalSuccesses + cb.counts.totalFailures + inFlight.count cb.generation
    ≤ cb.counts.requests ∧
  cb.counts.consecutiveSuccesses ≤ cb.counts.totalSuccesses ∧
  cb.counts.consecutiveFailures ≤ cb.counts.totalFailures ∧
  (cb.counts.consecutiveSuccesses = 0 ∨ cb.counts.consecutiveFailures = 0) ∧
  ∀ g ∈ inFlight, g ≤ cb.generation

end circuitbreaker

namespace circuitbreaker

/-! ## Lazy evaluation and single steps -/

theorem currentStateCB_closed_noRollover (cb : CircuitBreaker) (now : Int)
    (hs : cb.state = .StateClosed) (hw : noRollover cb now) : currentStateCB cb now = cb := by
  unfold currentStateCB noRollover at *
  rw [hs]
  simp only
  rw [if_neg]
  rintro ⟨h1, h2⟩
  rcases hw with h | h
  · exact h1 h
  · exact h h2

theorem currentStateCB_halfOpen (cb : CircuitBreaker) (now : Int)
    (hs : cb.state = .StateHalfOpen) : currentStateCB cb now = cb := by
  unfold currentStateCB
  rw [hs]

theorem currentStateCB_open_early (cb : CircuitBreaker) (now : Int)
    (hs : cb.state = .StateOpen) (hw : now ≤ cb.expiry) : currentStateCB cb now = cb := by
  unfold currentStateCB
  rw [hs]
  simp only
  rw [if_neg (by omega)]

theorem currentStateCB_open_late (cb : CircuitBreaker) (now : Int)
    (hs : cb.state = .StateOpen) (hw : cb.expiry < now) :
    currentStateCB cb now =
      { cb with state := .StateHalfOpen, generation := (cb.generation + 1) % 18446744073709551616,
                counts := {}, expiry := 0 } := by
  unfold currentStateCB
  rw [hs]
  simp only
  rw [if_pos hw]
  simp [setState, hs, toNewGeneration]

theorem beforeRequest_closed (cb : CircuitBreaker) (now : Int)
    (hs : cb.state = .StateClosed) (hw : noRollover cb now) :
    beforeRequest cb now = (admitted cb, cb.generation, none) := by
  simp [beforeRequest, currentState, currentStateCB_closed_noRollover cb now hs hw, hs, admitted]

theorem beforeRequest_open_early (cb : CircuitBreaker) (now : Int)
    (hs : cb.state = .StateOpen) (hw : now ≤ cb.expiry) :
    beforeRequest cb now = (cb, cb.generation, some "circuit breaker is open") := by
  simp [beforeRequest, currentState, currentStateCB_open_early cb now hs hw, hs]

theorem beforeRequest_halfOpen (cb : CircuitBreaker) (now : Int)
    (hs : cb.state = .StateHalfOpen) :
    beforeRequest cb now =
      if cb.counts.requests ≥ cb.maxRequests then
        (cb, cb.generation, some "circuit breaker is half-open and max requests reached")
      else (admitted cb, cb.generation, none) := by
  simp [beforeRequest, currentState, currentStateCB_halfOpen cb now hs, hs, admitted]

theorem afterRequest_closed (cb : CircuitBreaker) (now : Int) (success : Bool)
    (hs : cb.state = .StateClosed) (hw : noRollover cb now) :
    afterRequest cb now cb.generation success =
      if success then onSuccess cb .StateClosed now else onFailure cb .StateClosed now := by
  simp [afterRequest, currentState, currentStateCB_closed_noRollover cb now hs hw, hs]

theorem afterRequest_halfOpen (cb : CircuitBreaker) (now : Int) (success : Bool)
    (hs : cb.state = .StateHalfOpen) :
    afterRequest cb now cb.generation success =
      if success then onSuccess cb .StateHalfOpen now else onFailure cb .StateHalfOpen now := by
  simp [afterRequest, currentState, currentStateCB_halfOpen cb now hs, hs]

theorem Execute_closed {E W : Type} (cb : CircuitBreaker) (t1 t2 : Int)
    (req : W → Outcome E × W) (w : W) (err : Option E) (w1 : W)
    (hs : cb.state = .StateClosed) (h1 : noRollover cb t1) (h2 : noRollover cb t2)
    (hreq : req w = (.returns err, w1)) :
    Execute cb t1 t2 req w =
      { cb := if err.isNone then onSuccess (admitted cb) .StateClosed t2
              else onFailure (admitted cb) .StateClosed t2,
        err := err.map .ofReq, panicked := false, world := w1 } := by
  have ha : (admitted cb).state = .StateClosed := hs
  have hw : noRollover (admitted cb) t2 := h2
  have hg : (admitted cb).generation = cb.generation := rfl
  have := afterRequest_closed (admitted cb) t2 err.isNone ha hw
  rw [hg] at this
  simp [Execute, beforeRequest_closed cb t1 hs h1, hreq, this]

/-! ## Tripping from Closed -/

theorem ExecuteAll_cons {E W : Type} (cb : CircuitBreaker) (c : Call E W)
    (calls : List (Call E W)) (w : W) :
    ExecuteAll cb (c :: calls) w =
      ExecuteAll (Execute cb c.t1 c.t2 c.req w).cb calls (Execute cb c.t1 c.t2 c.req w).world := by
  simp [ExecuteAll]

theorem ExecuteAll_nil {E W : Type} (cb : CircuitBreaker) (w : W) :
    ExecuteAll cb ([] : List (Call E W)) w = (cb, w) := rfl

/-- A run of failing calls inside one Closed window that brings the consecutive-failure
count exactly up to the threshold ends Open, in the next generation, with zero counts and
the expiry set from the clock of the last recording. -/
theorem failures_trip {E W : Type} (calls : List (Call E W)) :
    ∀ (cb : CircuitBreaker) (w : W), cb.state = .StateClosed →
      cb.consecutiveFailures < 4294967296 → calls ≠ [] →
      cb.counts.consecutiveFailures + calls.length = cb.consecutiveFailures →
      (∀ c ∈ calls, failing c.req) →
      (∀ c ∈ calls, noRollover cb c.t1 ∧ noRollover cb c.t2) →
      (ExecuteAll cb calls w).1.state = .StateOpen ∧
      (ExecuteAll cb calls w).1.counts = {} ∧
      (ExecuteAll cb calls w).1.generation = (cb.generation + 1) % 18446744073709551616 ∧
      (ExecuteAll cb calls w).1.timeout = cb.timeout ∧
      ∀ tLast, calls.getLast?.map (fun c => c.t2) = some tLast →
        (ExecuteAll cb calls w).1.expiry = tLast + cb.timeout := by
  induction calls with
  | nil => intro cb w _ _ h; exact absurd rfl h
  | cons c rest ih =>
    intro cb w hs hty _ hlen hfail hwin
    obtain ⟨e, he⟩ := hfail c (List.mem_cons_self _ _) w
    have hreq : c.req w = (.returns (some e), (c.req w).2) := by
      rw [← he]
    have hc := hwin c (List.mem_cons_self _ _)
    rw [ExecuteAll_cons, Execute_closed cb c.t1 c.t2 c.req w (some e) _ hs hc.1 hc.2 hreq]
    simp only [Option.isNone_some, Bool.false_eq_true, if_false]
    simp only [List.length_cons] at hlen
    by_cases hr : rest = []
    · subst hr
      simp only [List.length_nil] at hlen
      have hmod : (cb.counts.consecutiveFailures + 1) % 4294967296 = cb.consecutiveFailures := by
        omega
      simp [ExecuteAll_nil, onFailure, admitted, setState, toNewGeneration, hmod, hs]
    · have hpos : 0 < rest.length := List.length_pos.mpr hr
      have hmod : (cb.counts.consecutiveFailures + 1) % 4294967296
          = cb.counts.consecutiveFailures + 1 := by omega
      have hlt : ¬ cb.consecutiveFailures ≤ cb.counts.consecutiveFailures + 1 := by omega
      have hstep : onFailure (admitted cb) .StateClosed c.t2 =
          { cb with counts :=
            { cb.counts with
              requests := (cb.counts.requests + 1) % 4294967296
              totalFailures := (cb.counts.totalFailures + 1) % 4294967296
              consecutiveFailures := cb.counts.consecutiveFailures + 1
              consecutiveSuccesses := 0 } } := by
        simp [onFailure, admitted, hmod, hlt]
      rw [hstep]
      have := ih { cb with counts :=
            { cb.counts with
              requests := (cb.counts.requests + 1) % 4294967296
              totalFailures := (cb.counts.totalFailures + 1) % 4294967296
              consecutiveFailures := cb.counts.consecutiveFailures + 1
              consecutiveSuccesses := 0 } } (c.req w).2 hs hty hr (by simp only; omega)
        (fun d hd => hfail d (List.mem_cons_of_mem _ hd))
        (fun d hd => hwin d (List.mem_cons_of_mem _ hd))
      obtain ⟨a1, a2, a3, a4, a5⟩ := this
      refine ⟨a1, a2, a3, a4, ?_⟩
      intro tLast hl
      apply a5
      obtain ⟨d, rest1, hd⟩ := List.exists_cons_of_ne_nil hr
      rw [hd] at hl ⊢
      rw [List.getLast?_cons_cons] at hl
      exact hl

theorem Execute_open_early {E W : Type} (cb : CircuitBreaker) (t1 t2 : Int)
    (req : W → Outcome E × W) (w : W) (hs : cb.state = .StateOpen) (hw : t1 ≤ cb.expiry) :
    Execute cb t1 t2 req w =
      { cb := cb, err := some (.errorf "circuit breaker is open"), panicked := false,
        world := w } := by
  simp [Execute, beforeRequest_open_early cb t1 hs hw]

/-- C1: a Closed breaker with zero counts and consecutive-failure threshold n ≥ 1 reports
State() = "open" after n Execute calls whose operation returns an error, made one after
another inside one Closed window; and an Execute call whose clock is not past the time of
the trip plus openTimeout returns the non-nil error "circuit breaker is open", leaves the
world as it was (the operation is not invoked) and does not panic. -/
theorem C1_threshold_failures_open {E W : Type} (cb : CircuitBreaker)
    (calls : List (Call E W)) (w : W)
    (hn : 1 ≤ cb.consecutiveFailures) (hty : cb.consecutiveFailures < 4294967296)
    (hs : cb.state = .StateClosed) (hz : cb.counts = {})
    (hlen : calls.length = cb.consecutiveFailures)
    (hfail : ∀ c ∈ calls, failing c.req)
    (hwin : ∀ c ∈ calls, noRollover cb c.t1 ∧ noRollover cb c.t2) :
    (ExecuteAll cb calls w).1.State = "open" ∧
    ∀ tLast, calls.getLast?.map (fun c => c.t2) = some tLast →
      ∀ (t1 t2 : Int) (req : W → Outcome E × W) (w1 : W), t1 ≤ tLast + cb.timeout →
        (Execute (ExecuteAll cb calls w).1 t1 t2 req w1).err ≠ none ∧
        (Execute (ExecuteAll cb calls w).1 t1 t2 req w1).err
          = some (.errorf "circuit breaker is open") ∧
        (Execute (ExecuteAll cb calls w).1 t1 t2 req w1).world = w1 ∧
        (Execute (ExecuteAll cb calls w).1 t1 t2 req w1).panicked = false := by
  have hne : calls ≠ [] := by
    intro h
    rw [h] at hlen
    simp at hlen
    omega
  have hcnt : cb.counts.consecutiveFailures + calls.length = cb.consecutiveFailures := by
    rw [hz, hlen]
    simp
  obtain ⟨a1, _, _, a4, a5⟩ := failures_trip calls cb w hs hty hne hcnt hfail hwin
  refine ⟨by simp [CircuitBreaker.State, a1, State.String], ?_⟩
  intro tLast hl t1 t2 req w1 ht
  have hexp := a5 tLast hl
  rw [Execute_open_early _ t1 t2 req w1 a1 (by rw [hexp]; exact ht)]
  simp

/-- C1 at New(3, 1s, 1s, 2) created at clock 5000: two failing calls, then a call at clock
5005 is rejected and the counter world stays at 2. -/
theorem C1_threshold_failures_open_witness :
    (ExecuteAll (New 3 1000000000 1000000000 2 5000)
      [⟨5001, 5002, failFunc⟩, ⟨5003, 5004, failFunc⟩] 0).1.State = "open" ∧
    (Execute (ExecuteAll (New 3 1000000000 1000000000 2 5000)
      [⟨5001, 5002, failFunc⟩, ⟨5003, 5004, failFunc⟩] 0).1 5005 5006 successFunc 2).err ≠ none ∧
    (Execute (ExecuteAll (New 3 1000000000 1000000000 2 5000)
      [⟨5001, 5002, failFunc⟩, ⟨5003, 5004, failFunc⟩] 0).1 5005 5006 successFunc 2).world = 2 := by
  have h := C1_threshold_failures_open (New 3 1000000000 1000000000 2 5000)
    [⟨5001, 5002, failFunc⟩, ⟨5003, 5004, failFunc⟩] 0 (by decide) (by decide) rfl rfl rfl
    (by
      intro c hc w
      simp only [List.mem_cons, List.mem_singleton, List.not_mem_nil, or_false] at hc
      rcases hc with rfl | rfl <;> exact ⟨"test error", rfl⟩)
    (by
      intro c hc
      simp only [List.mem_cons, List.mem_singleton, List.not_mem_nil, or_false] at hc
      rcases hc with rfl | rfl <;> exact ⟨by decide, by decide⟩)
  have h2 := h.2 5004 rfl 5005 5006 successFunc 2 (by decide)
  exact ⟨h.1, h2.1, h2.2.2.1⟩

/-! ## Open, then Half-Open -/

theorem Execute_of_pass {E W : Type} (cb cb1 : CircuitBreaker) (g : Nat) (t1 t2 : Int)
    (req : W → Outcome E × W) (w : W) (err : Option E) (w1 : W)
    (hb : beforeRequest cb t1 = (cb1, g, none)) (hreq : req w = (.returns err, w1)) :
    Execute cb t1 t2 req w =
      { cb := afterRequest cb1 t2 g err.isNone, err := err.map .ofReq, panicked := false,
        world := w1 } := by
  simp [Execute, hb, hreq]

theorem Execute_of_reject {E W : Type} (cb cb1 : CircuitBreaker) (g : Nat) (msg : String)
    (t1 t2 : Int) (req : W → Outcome E × W) (w : W)
    (hb : beforeRequest cb t1 = (cb1, g, some msg)) :
    Execute cb t1 t2 req w =
      { cb := cb1, err := some (.errorf msg), panicked := false, world := w } := by
  simp [Execute, hb]

theorem beforeRequest_open_late (cb : CircuitBreaker) (now : Int)
    (hs : cb.state = .StateOpen) (hw : cb.expiry < now) :
    beforeRequest cb now =
      if cb.maxRequests = 0 then
        (halfOpened cb, (cb.generation + 1) % 18446744073709551616,
          some "circuit breaker is half-open and max requests reached")
      else (admitted (halfOpened cb), (cb.generation + 1) % 18446744073709551616, none) := by
  have h := currentStateCB_open_late cb now hs hw
  by_cases hm : cb.maxRequests = 0
  · simp [beforeRequest, currentState, h, hm, halfOpened]
  · simp [beforeRequest, currentState, h, hm, halfOpened, admitted]

theorem setState_open (cb0 : CircuitBreaker) (t : Int) (hne : cb0.state ≠ .StateOpen) :
    setState cb0 .StateOpen t =
      { cb0 with state := .StateOpen, generation := (cb0.generation + 1) % 18446744073709551616,
                 counts := {}, expiry := t + cb0.timeout } := by
  simp [setState, hne, toNewGeneration]

/-- C2 as stated fails for maxRequests = 0: New(0, 1s, 1s, 1) trips at clock 2 on its first
failure; the Execute call at clock 2000000000, later than 2 + 1s, finds the breaker
Half-Open with its quota of zero already used up, returns the rejection error and does not
run the operation. -/
theorem C2_counterexample :
    (Execute (New 0 1000000000 1000000000 1 0) 1 2 failFunc 0).cb
      = setState (admitted (New 0 1000000000 1000000000 1 0)) .StateOpen 2 ∧
    (2 : Int) + 1000000000 < 2000000000 ∧
    (Execute (Execute (New 0 1000000000 1000000000 1 0) 1 2 failFunc 0).cb
      2000000000 2000000001 successFunc 1).err
      = some (.errorf "circuit breaker is half-open and max requests reached") ∧
    (Execute (Execute (New 0 1000000000 1000000000 1 0) 1 2 failFunc 0).cb
      2000000000 2000000001 successFunc 1).world = 1 := by
  decide

/-- C2 (amended): for every configuration with maxRequests ≥ 1 and every breaker that
transitioned to Open at clock t, the next Execute call made strictly later than
t + openTimeout is admitted: beforeRequest returns no error and leaves the breaker
Half-Open in the next generation with one request counted, the operation is invoked once
(the world is the one the operation produced) and Execute returns the operation's own
result. -/
theorem C2_admitted_after_timeout {E W : Type} (cb0 : CircuitBreaker) (t t1 t2 : Int)
    (req : W → Outcome E × W) (w : W) (err : Option E) (w1 : W)
    (hne : cb0.state ≠ .StateOpen) (hmax : 1 ≤ cb0.maxRequests)
    (hlate : t + cb0.timeout < t1) (hreq : req w = (.returns err, w1)) :
    (setState cb0 .StateOpen t).state = .StateOpen ∧
    (beforeRequest (setState cb0 .StateOpen t) t1).2.2 = none ∧
    (beforeRequest (setState cb0 .StateOpen t) t1).1.state = .StateHalfOpen ∧
    (beforeRequest (setState cb0 .StateOpen t) t1).1.counts.requests = 1 ∧
    (Execute (setState cb0 .StateOpen t) t1 t2 req w).err = err.map .ofReq ∧
    (Execute (setState cb0 .StateOpen t) t1 t2 req w).world = w1 ∧
    (Execute (setState cb0 .StateOpen t) t1 t2 req w).panicked = false := by
  have hso := setState_open cb0 t hne
  have hs : (setState cb0 .StateOpen t).state = .StateOpen := by rw [hso]
  have he : (setState cb0 .StateOpen t).expiry < t1 := by rw [hso]; exact hlate
  have hm : ¬ (setState cb0 .StateOpen t).maxRequests = 0 := by rw [hso]; simp only; omega
  have hb := beforeRequest_open_late _ t1 hs he
  rw [if_neg hm] at hb
  rw [Execute_of_pass _ _ _ t1 t2 req w err w1 hb hreq, hb]
  refine ⟨hs, rfl, rfl, ?_, rfl, rfl, rfl⟩
  simp [admitted, halfOpened]

/-- C2 (amended) at New(2, 100ms, 100ms, 2) tripped at clock 7: the call at clock
100000008 is admitted and returns nil, and the counter world goes from 0 to 1. -/
theorem C2_admitted_after_timeout_witness :
    (beforeRequest (setState (New 2 100000000 100000000 2 0) .StateOpen 7) 100000008).2.2 = none ∧
    (beforeRequest (setState (New 2 100000000 100000000 2 0) .StateOpen 7) 100000008).1.state
      = .StateHalfOpen ∧
    (Execute (setState (New 2 100000000 100000000 2 0) .StateOpen 7) 100000008 100000009
      successFunc 0).err = none ∧
    (Execute (setState (New 2 100000000 100000000 2 0) .StateOpen 7) 100000008 100000009
      successFunc 0).world = 1 := by
  have h := C2_admitted_after_timeout (New 2 100000000 100000000 2 0) 7 100000008 100000009
    successFunc 0 none 1 (by decide) (by decide) (by decide) rfl
  exact ⟨h.2.1, h.2.2.1, h.2.2.2.2.1, h.2.2.2.2.2.1⟩

/-! ## Half-Open -/

theorem Execute_halfOpen {E W : Type} (cb : CircuitBreaker) (t1 t2 : Int)
    (req : W → Outcome E × W) (w : W) (err : Option E) (w1 : W)
    (hs : cb.state = .StateHalfOpen) (hq : cb.counts.requests < cb.maxRequests)
    (hreq : req w = (.returns err, w1)) :
    Execute cb t1 t2 req w =
      { cb := if err.isNone then onSuccess (admitted cb) .StateHalfOpen t2
              else onFailure (admitted cb) .StateHalfOpen t2,
        err := err.map .ofReq, panicked := false, world := w1 } := by
  have hb := beforeRequest_halfOpen cb t1 hs
  rw [if_neg (by omega)] at hb
  have ha : (admitted cb).state = .StateHalfOpen := hs
  have hg : (admitted cb).generation = cb.generation := rfl
  have := afterRequest_halfOpen (admitted cb) t2 err.isNone ha
  rw [hg] at this
  rw [Execute_of_pass cb _ _ t1 t2 req w err w1 hb hreq, this]

theorem ExecuteAll_append {E W : Type} (cb : CircuitBreaker) (xs ys : List (Call E W)) (w : W) :
    ExecuteAll cb (xs ++ ys) w = ExecuteAll (ExecuteAll cb xs w).1 ys (ExecuteAll cb xs w).2 := by
  simp [ExecuteAll, List.foldl_append]

/-- Successful calls made one after another in Half-Open, fewer than the quota allows,
are all admitted and recorded: the breaker stays Half-Open in the same generation and both
the request count and the consecutive-success count grow by the number of calls. -/
theorem halfOpen_successes {E W : Type} (calls : List (Call E W)) :
    ∀ (cb : CircuitBreaker) (w : W), cb.state = .StateHalfOpen →
      cb.maxRequests < 4294967296 →
      cb.counts.requests = cb.counts.consecutiveSuccesses →
      cb.counts.consecutiveSuccesses + calls.length < cb.maxRequests →
      (∀ c ∈ calls, succeeding c.req) →
      (ExecuteAll cb calls w).1.state = .StateHalfOpen ∧
      (ExecuteAll cb calls w).1.maxRequests = cb.maxRequests ∧
      (ExecuteAll cb calls w).1.generation = cb.generation ∧
      (ExecuteAll cb calls w).1.counts.requests = cb.counts.requests + calls.length ∧
      (ExecuteAll cb calls w).1.counts.consecutiveSuccesses
        = cb.counts.consecutiveSuccesses + calls.length := by
  induction calls with
  | nil => intro cb w hs _ _ _ _; simp [ExecuteAll_nil, hs]
  | cons c rest ih =>
    intro cb w hs hty heq hlen hsucc
    have hok := hsucc c (List.mem_cons_self _ _) w
    have hreq : c.req w = (.returns none, (c.req w).2) := by rw [← hok]
    simp only [List.length_cons] at hlen
    rw [ExecuteAll_cons, Execute_halfOpen cb c.t1 c.t2 c.req w none _ hs (by omega) hreq]
    simp only [Option.isNone_none, if_true]
    have hmod : (cb.counts.consecutiveSuccesses + 1) % 4294967296
        = cb.counts.consecutiveSuccesses + 1 := by omega
    have hmodr : (cb.counts.requests + 1) % 4294967296 = cb.counts.requests + 1 := by omega
    have hlt : ¬ cb.maxRequests ≤ cb.counts.consecutiveSuccesses + 1 := by omega
    have hstep : onSuccess (admitted cb) .StateHalfOpen c.t2 =
        { cb with counts :=
          { cb.counts with
            requests := cb.counts.requests + 1
            totalSuccesses := (cb.counts.totalSuccesses + 1) % 4294967296
            consecutiveSuccesses := cb.counts.consecutiveSuccesses + 1
            consecutiveFailures := 0 } } := by
      simp [onSuccess, admitted, hmod, hmodr, hlt]
    rw [hstep]
    obtain ⟨a1, a2, a3, a4, a5⟩ := ih { cb with counts :=
          { cb.counts with
            requests := cb.counts.requests + 1
            totalSuccesses := (cb.counts.totalSuccesses + 1) % 4294967296
            consecutiveSuccesses := cb.counts.consecutiveSuccesses + 1
            consecutiveFailures := 0 } } (c.req w).2 hs hty (by simp only; omega)
      (by simp only; omega) (fun d hd => hsucc d (List.mem_cons_of_mem _ hd))
    refine ⟨a1, a2, a3, ?_, ?_⟩
    · rw [a4]; simp only [List.length_cons]; omega
    · rw [a5]; simp only [List.length_cons]; omega

theorem onFailure_halfOpen (cb : CircuitBreaker) (now : Int) (hs : cb.state = .StateHalfOpen) :
    (onFailure cb .StateHalfOpen now).state = .StateOpen ∧
    (onFailure cb .StateHalfOpen now).counts = {} ∧
    (onFailure cb .StateHalfOpen now).generation = (cb.generation + 1) % 18446744073709551616 ∧
    (onFailure cb .StateHalfOpen now).expiry = now + cb.timeout := by
  simp [onFailure, setState, toNewGeneration, hs]

theorem Execute_halfOpen_failure {E W : Type} (cb : CircuitBreaker) (t1 t2 : Int)
    (req : W → Outcome E × W) (w : W) (hs : cb.state = .StateHalfOpen)
    (hq : cb.counts.requests < cb.maxRequests) (hf : failing req) :
    (Execute cb t1 t2 req w).cb.state = .StateOpen := by
  obtain ⟨e, he⟩ := hf w
  have hreq : req w = (.returns (some e), (req w).2) := by rw [← he]
  rw [Execute_halfOpen cb t1 t2 req w (some e) _ hs hq hreq]
  simp only [Option.isNone_some, Bool.false_eq_true, if_false]
  exact (onFailure_halfOpen (admitted cb) t2 hs).1

/-- C3: for a breaker that has just entered Half-Open (zero counts) with quota
maxRequests = m ≥ 1: (a) m successful Execute calls made one after another leave it Closed;
(b) after any number j < m of successful calls, a failing call leaves it Open; and (c) in
any Half-Open breaker whatever its counts, an admitted call that fails leaves it Open. -/
theorem C3_halfOpen_resolution {E W : Type} (cb : CircuitBreaker)
    (hs : cb.state = .StateHalfOpen) (hz : cb.counts = {})
    (hm : 1 ≤ cb.maxRequests) (hty : cb.maxRequests < 4294967296) :
    (∀ (calls : List (Call E W)) (w : W), calls.length = cb.maxRequests →
      (∀ c ∈ calls, succeeding c.req) →
      (ExecuteAll cb calls w).1.state = .StateClosed) ∧
    (∀ (pre : List (Call E W)) (c : Call E W) (w : W), pre.length < cb.maxRequests →
      (∀ d ∈ pre, succeeding d.req) → failing c.req →
      (ExecuteAll cb (pre ++ [c]) w).1.state = .StateOpen) ∧
    (∀ (cb2 : CircuitBreaker) (t1 t2 : Int) (req : W → Outcome E × W) (w : W),
      cb2.state = .StateHalfOpen → (beforeRequest cb2 t1).2.2 = none → failing req →
      (Execute cb2 t1 t2 req w).cb.state = .StateOpen) := by
  have hz1 : cb.counts.requests = cb.counts.consecutiveSuccesses := by rw [hz]
  have hz2 : cb.counts.consecutiveSuccesses = 0 := by rw [hz]
  refine ⟨?_, ?_, ?_⟩
  · intro calls w hlen hsucc
    have hne : calls ≠ [] := by
      intro h
      rw [h] at hlen
      simp at hlen
      omega
    have hsplit := List.dropLast_append_getLast hne
    have hdl : calls.dropLast.length = cb.maxRequests - 1 := by
      rw [List.length_dropLast, hlen]
    obtain ⟨a1, a2, _, a4, a5⟩ := halfOpen_successes calls.dropLast cb w hs hty hz1
      (by omega) (fun d hd => hsucc d (List.mem_of_mem_dropLast hd))
    rw [← hsplit, ExecuteAll_append, ExecuteAll_cons, ExecuteAll_nil]
    have hok := hsucc (calls.getLast hne) (List.getLast_mem hne) (ExecuteAll cb calls.dropLast w).2
    have hreq : (calls.getLast hne).req (ExecuteAll cb calls.dropLast w).2
        = (.returns none, ((calls.getLast hne).req (ExecuteAll cb calls.dropLast w).2).2) := by
      rw [← hok]
    rw [Execute_halfOpen _ _ _ _ _ none _ a1 (by omega) hreq]
    simp only [Option.isNone_none, if_true]
    have hcs : ((ExecuteAll cb calls.dropLast w).1.counts.consecutiveSuccesses + 1) % 4294967296
        = cb.maxRequests := by omega
    simp [onSuccess, admitted, setState, toNewGeneration, hcs, a2, a1]
  · intro pre c w hlen hsucc hfail
    obtain ⟨a1, a2, _, a4, _⟩ := halfOpen_successes pre cb w hs hty hz1
      (by omega) hsucc
    rw [ExecuteAll_append, ExecuteAll_cons, ExecuteAll_nil]
    exact Execute_halfOpen_failure _ _ _ _ _ a1 (by omega) hfail
  · intro cb2 t1 t2 req w hs2 hadm hfail
    have hb := beforeRequest_halfOpen cb2 t1 hs2
    by_cases hq : cb2.counts.requests < cb2.maxRequests
    · exact Execute_halfOpen_failure cb2 t1 t2 req w hs2 hq hfail
    · rw [if_pos (by omega)] at hb
      rw [hb] at hadm
      simp at hadm

/-- C3 at New(2, 100ms, 100ms, 2), tripped at clock 7 and lazily turned Half-Open at
clock 100000008: two successes close it; one success and then a failure open it; a
failure as the first call opens it. -/
theorem C3_halfOpen_resolution_witness :
    (ExecuteAll (currentStateCB (setState (New 2 100000000 100000000 2 0) .StateOpen 7) 100000008)
      [⟨100000009, 100000010, successFunc⟩, ⟨100000011, 100000012, successFunc⟩] 0).1.state
      = .StateClosed ∧
    (ExecuteAll (currentStateCB (setState (New 2 100000000 100000000 2 0) .StateOpen 7) 100000008)
      ([⟨100000009, 100000010, successFunc⟩] ++ [⟨100000011, 100000012, failFunc⟩]) 0).1.state
      = .StateOpen ∧
    (Execute (currentStateCB (setState (New 2 100000000 100000000 2 0) .StateOpen 7) 100000008)
      100000009 100000010 failFunc 0).cb.state = .StateOpen := by
  have h := @C3_halfOpen_resolution String Nat
    (currentStateCB (setState (New 2 100000000 100000000 2 0) .StateOpen 7) 100000008)
    rfl rfl (by decide) (by decide)
  refine ⟨h.1 _ 0 rfl ?_, h.2.1 _ _ 0 (by decide) ?_ ?_, h.2.2 _ _ _ _ 0 rfl rfl ?_⟩
  · intro c hc w
    simp only [List.mem_cons, List.mem_singleton, List.not_mem_nil, or_false] at hc
    rcases hc with rfl | rfl <;> rfl
  · intro c hc w
    simp only [List.mem_cons, List.mem_singleton, List.not_mem_nil, or_false] at hc
    rcases hc with rfl
    rfl
  · exact fun w => ⟨"test error", rfl⟩
  · exact fun w => ⟨"test error", rfl⟩

/-! ## The scenario of the package tests -/

theorem Execute_open_late {E W : Type} (cb : CircuitBreaker) (t1 t2 : Int)
    (req : W → Outcome E × W) (w : W) (err : Option E) (w1 : W)
    (hs : cb.state = .StateOpen) (hw : cb.expiry < t1) (hm : cb.maxRequests ≠ 0)
    (hreq : req w = (.returns err, w1)) :
    Execute cb t1 t2 req w =
      { cb := if err.isNone then onSuccess (admitted (halfOpened cb)) .StateHalfOpen t2
              else onFailure (admitted (halfOpened cb)) .StateHalfOpen t2,
        err := err.map .ofReq, panicked := false, world := w1 } := by
  have hb := beforeRequest_open_late cb t1 hs hw
  rw [if_neg hm] at hb
  have := afterRequest_halfOpen (admitted (halfOpened cb)) t2 err.isNone rfl
  rw [Execute_of_pass cb _ _ t1 t2 req w err w1 hb hreq]
  exact congrArg (fun c => ({ cb := c, err := err.map .ofReq, panicked := false, world := w1 } : Executed E W)) this

/-- The breaker `New(3, 1s, 1s, 2)` created at clock `t0`, after two failing calls recorded
inside its first Closed window, the second at clock `b2`. -/
theorem scenario_tripped {E W : Type} (t0 a1 a2 b1 b2 : Int)
    (fail1 fail2 : W → Outcome E × W) (w : W)
    (hf1 : failing fail1) (hf2 : failing fail2)
    (ha1 : a1 ≤ t0 + 1000000000) (ha2 : a2 ≤ t0 + 1000000000)
    (hb1 : b1 ≤ t0 + 1000000000) (hb2 : b2 ≤ t0 + 1000000000) :
    (ExecuteAll (New 3 1000000000 1000000000 2 t0) [⟨a1, a2, fail1⟩, ⟨b1, b2, fail2⟩] w).1
      = scenarioOpen b2 := by
  have hN : New 3 1000000000 1000000000 2 t0 =
      { maxRequests := 3, interval := 1000000000, timeout := 1000000000,
        consecutiveFailures := 2, state := .StateClosed, generation := 1, counts := {},
        expiry := t0 + 1000000000 } := by
    simp [New, toNewGeneration]
  obtain ⟨x1, hx1⟩ := hf1 w
  have hr1 : fail1 w = (.returns (some x1), (fail1 w).2) := by rw [← hx1]
  obtain ⟨x2, hx2⟩ := hf2 (fail1 w).2
  have hr2 : fail2 (fail1 w).2 = (.returns (some x2), (fail2 (fail1 w).2).2) := by rw [← hx2]
  rw [hN, ExecuteAll_cons, Execute_closed _ _ _ _ _ _ _ rfl (Or.inr (by simp only; omega))
    (Or.inr (by simp only; omega)) hr1]
  simp [onFailure, admitted, setState, toNewGeneration]
  rw [ExecuteAll_cons, Execute_closed _ _ _ _ _ _ _ rfl (Or.inr (by simp only; omega))
    (Or.inr (by simp only; omega)) hr2]
  simp [onFailure, admitted, setState, toNewGeneration, ExecuteAll_nil, scenarioOpen]

/-- The tripped scenario breaker after two, and after three, successful calls made once
its Open period is over. -/
theorem scenario_recovery {E W : Type} (b2 d1 d2 e1 e2 f1 f2 : Int)
    (ok1 ok2 ok3 : W → Outcome E × W) (w : W)
    (hs1 : succeeding ok1) (hs2 : succeeding ok2) (hs3 : succeeding ok3)
    (hd : b2 + 1000000000 < d1) :
    (ExecuteAll (scenarioOpen b2) [⟨d1, d2, ok1⟩, ⟨e1, e2, ok2⟩] w).1.state = .StateHalfOpen ∧
    (ExecuteAll (scenarioOpen b2) [⟨d1, d2, ok1⟩, ⟨e1, e2, ok2⟩, ⟨f1, f2, ok3⟩] w).1.state
      = .StateClosed := by
  have hr1 : ok1 w = (.returns none, (ok1 w).2) := by rw [← hs1 w]
  have hr2 : ok2 (ok1 w).2 = (.returns none, (ok2 (ok1 w).2).2) := by rw [← hs2 _]
  have hr3 : ok3 (ok2 (ok1 w).2).2 = (.returns none, (ok3 (ok2 (ok1 w).2).2).2) := by
    rw [← hs3 _]
  constructor
  · rw [ExecuteAll_cons, Execute_open_late _ _ _ _ _ _ _ rfl (by simpa [scenarioOpen] using hd) (by simp [scenarioOpen]) hr1]
    simp [onSuccess, admitted, halfOpened, scenarioOpen]
    rw [ExecuteAll_cons, Execute_halfOpen _ _ _ _ _ _ _ rfl (by decide) hr2]
    simp [onSuccess, admitted, ExecuteAll_nil]
  · rw [ExecuteAll_cons, Execute_open_late _ _ _ _ _ _ _ rfl (by simpa [scenarioOpen] using hd) (by simp [scenarioOpen]) hr1]
    simp [onSuccess, admitted, halfOpened, scenarioOpen]
    rw [ExecuteAll_cons, Execute_halfOpen _ _ _ _ _ _ _ rfl (by decide) hr2]
    simp [onSuccess, admitted]
    rw [ExecuteAll_cons, Execute_halfOpen _ _ _ _ _ _ _ rfl (by decide) hr3]
    simp [onSuccess, admitted, ExecuteAll_nil, setState, toNewGeneration]

/-- C4 as stated fails: New(3, 1s, 1s, 2) created at clock 0 trips on two failures (the
second recorded at clock 4); after the 1s timeout two successful calls leave State() at
"half-open", not "closed", because the Half-Open quota is 3. -/
theorem C4_counterexample :
    (ExecuteAll (New 3 1000000000 1000000000 2 0)
      [⟨1, 2, failFunc⟩, ⟨3, 4, failFunc⟩] 0).1.State = "open" ∧
    (ExecuteAll (ExecuteAll (New 3 1000000000 1000000000 2 0)
      [⟨1, 2, failFunc⟩, ⟨3, 4, failFunc⟩] 0).1
      [⟨1000000005, 1000000006, successFunc⟩, ⟨1000000007, 1000000008, successFunc⟩] 2).1.State
      = "half-open" ∧
    (ExecuteAll (ExecuteAll (New 3 1000000000 1000000000 2 0)
      [⟨1, 2, failFunc⟩, ⟨3, 4, failFunc⟩] 0).1
      [⟨1000000005, 1000000006, successFunc⟩, ⟨1000000007, 1000000008, successFunc⟩] 2).1.State
      ≠ "closed" := by
  decide

/-- C4 (amended): for New(3, 1s, 1s, 2) created at clock t0, two failing Execute calls
inside the first Closed window leave State() = "open"; a third call made no later than 1s
after the trip returns the rejection error without running its operation; once more than
1s has passed since the trip, two successive successful calls leave State() = "half-open"
and the third successive successful call leaves State() = "closed". -/
theorem C4_scenario_three_successes {E W : Type}
    (t0 a1 a2 b1 b2 c1 c2 d1 d2 e1 e2 f1 f2 : Int)
    (fail1 fail2 probe ok1 ok2 ok3 : W → Outcome E × W) (w w1 w2 : W)
    (hf1 : failing fail1) (hf2 : failing fail2)
    (hs1 : succeeding ok1) (hs2 : succeeding ok2) (hs3 : succeeding ok3)
    (ha1 : a1 ≤ t0 + 1000000000) (ha2 : a2 ≤ t0 + 1000000000)
    (hb1 : b1 ≤ t0 + 1000000000) (hb2 : b2 ≤ t0 + 1000000000)
    (hc : c1 ≤ b2 + 1000000000) (hd : b2 + 1000000000 < d1) :
    (ExecuteAll (New 3 1000000000 1000000000 2 t0)
      [⟨a1, a2, fail1⟩, ⟨b1, b2, fail2⟩] w).1.State = "open" ∧
    (Execute (ExecuteAll (New 3 1000000000 1000000000 2 t0)
      [⟨a1, a2, fail1⟩, ⟨b1, b2, fail2⟩] w).1 c1 c2 probe w1).err
      = some (.errorf "circuit breaker is open") ∧
    (Execute (ExecuteAll (New 3 1000000000 1000000000 2 t0)
      [⟨a1, a2, fail1⟩, ⟨b1, b2, fail2⟩] w).1 c1 c2 probe w1).world = w1 ∧
    (ExecuteAll (ExecuteAll (New 3 1000000000 1000000000 2 t0)
      [⟨a1, a2, fail1⟩, ⟨b1, b2, fail2⟩] w).1
      [⟨d1, d2, ok1⟩, ⟨e1, e2, ok2⟩] w2).1.State = "half-open" ∧
    (ExecuteAll (ExecuteAll (New 3 1000000000 1000000000 2 t0)
      [⟨a1, a2, fail1⟩, ⟨b1, b2, fail2⟩] w).1
      [⟨d1, d2, ok1⟩, ⟨e1, e2, ok2⟩, ⟨f1, f2, ok3⟩] w2).1.State = "closed" := by
  rw [scenario_tripped t0 a1 a2 b1 b2 fail1 fail2 w hf1 hf2 ha1 ha2 hb1 hb2]
  have hrec := scenario_recovery b2 d1 d2 e1 e2 f1 f2 ok1 ok2 ok3 w2 hs1 hs2 hs3 hd
  rw [Execute_open_early (scenarioOpen b2) c1 c2 probe w1 rfl (by simpa [scenarioOpen] using hc)]
  refine ⟨rfl, rfl, rfl, ?_, ?_⟩
  · simp [CircuitBreaker.State, hrec.1, State.String]
  · simp [CircuitBreaker.State, hrec.2, State.String]

/-- C4 (amended) at creation clock 0 with the calls at clocks 1 to 4, the rejected call at
clock 5 and the three successful calls from clock 1000000005 on. -/
theorem C4_scenario_three_successes_witness :
    (ExecuteAll (New 3 1000000000 1000000000 2 0)
      [⟨1, 2, failFunc⟩, ⟨3, 4, failFunc⟩] 0).1.State = "open" ∧
    (Execute (ExecuteAll (New 3 1000000000 1000000000 2 0)
      [⟨1, 2, failFunc⟩, ⟨3, 4, failFunc⟩] 0).1 5 6 successFunc 2).err
      = some (.errorf "circuit breaker is open") ∧
    (Execute (ExecuteAll (New 3 1000000000 1000000000 2 0)
      [⟨1, 2, failFunc⟩, ⟨3, 4, failFunc⟩] 0).1 5 6 successFunc 2).world = 2 ∧
    (ExecuteAll (ExecuteAll (New 3 1000000000 1000000000 2 0)
      [⟨1, 2, failFunc⟩, ⟨3, 4, failFunc⟩] 0).1
      [⟨1000000005, 1000000006, successFunc⟩, ⟨1000000007, 1000000008, successFunc⟩] 2).1.State
      = "half-open" ∧
    (ExecuteAll (ExecuteAll (New 3 1000000000 1000000000 2 0)
      [⟨1, 2, failFunc⟩, ⟨3, 4, failFunc⟩] 0).1
      [⟨1000000005, 1000000006, successFunc⟩, ⟨1000000007, 1000000008, successFunc⟩,
       ⟨1000000009, 1000000010, successFunc⟩] 2).1.State = "closed" :=
  C4_scenario_three_successes 0 1 2 3 4 5 6 1000000005 1000000006 1000000007 1000000008
    1000000009 1000000010 failFunc failFunc successFunc successFunc successFunc successFunc
    0 2 2 (fun _ => ⟨"test error", rfl⟩) (fun _ => ⟨"test error", rfl⟩)
    (fun _ => rfl) (fun _ => rfl) (fun _ => rfl)
    (by decide) (by decide) (by decide) (by decide) (by decide) (by decide)

/-! ## Histories of critical sections -/

theorem afterRequest_eq (cb : CircuitBreaker) (now : Int) (before : Nat) (success : Bool) :
    afterRequest cb now before success =
      if (currentStateCB cb now).generation ≠ before then currentStateCB cb now
      else if success then onSuccess (currentStateCB cb now) (currentStateCB cb now).state now
      else onFailure (currentStateCB cb now) (currentStateCB cb now).state now := rfl

theorem beforeRequest_eq (cb : CircuitBreaker) (now : Int) :
    beforeRequest cb now =
      if (currentStateCB cb now).state = .StateOpen then
        (currentStateCB cb now, (currentStateCB cb now).generation,
          some "circuit breaker is open")
      else if (currentStateCB cb now).state = .StateHalfOpen ∧
          (currentStateCB cb now).counts.requests ≥ (currentStateCB cb now).maxRequests then
        (currentStateCB cb now, (currentStateCB cb now).generation,
          some "circuit breaker is half-open and max requests reached")
      else (admitted (currentStateCB cb now), (currentStateCB cb now).generation, none) := rfl

theorem toNewGeneration_generation_ne (cb : CircuitBreaker) (now : Int) :
    (toNewGeneration cb now).generation ≠ cb.generation := by
  simp only [toNewGeneration]
  omega

theorem currentStateCB_maxRequests (cb : CircuitBreaker) (now : Int) :
    (currentStateCB cb now).maxRequests = cb.maxRequests := by
  unfold currentStateCB setState toNewGeneration
  cases cb.state <;> simp only <;> split_ifs <;> rfl

theorem currentStateCB_halfOpen_inv (cb : CircuitBreaker) (now : Int)
    (h : (currentStateCB cb now).state = .StateHalfOpen) :
    currentStateCB cb now = cb ∨
    ((currentStateCB cb now).counts = {} ∧
      (currentStateCB cb now).generation ≠ cb.generation) := by
  unfold currentStateCB at h ⊢
  cases hs : cb.state
  · rw [hs] at h
    simp only at h ⊢
    split_ifs at h ⊢ with hc
    · simp [toNewGeneration, hs] at h
    · exact Or.inl rfl
  · exact Or.inl rfl
  · simp only
    split_ifs with hc
    · right
      simp only [setState, hs, toNewGeneration]
      constructor
      · rfl
      · simp only [reduceCtorEq, if_false]
        omega
    · exact Or.inl rfl

theorem onSuccess_halfOpen_inv (c : CircuitBreaker) (st : State) (now : Int)
    (h : (onSuccess c st now).state = .StateHalfOpen) :
    c.state = .StateHalfOpen ∧
    (onSuccess c st now).counts.requests = c.counts.requests ∧
    (onSuccess c st now).generation = c.generation ∧
    (onSuccess c st now).maxRequests = c.maxRequests := by
  unfold onSuccess setState toNewGeneration at h ⊢
  simp only at h ⊢
  split_ifs at h ⊢ <;> simp_all

theorem onFailure_halfOpen_inv (c : CircuitBreaker) (st : State) (now : Int)
    (h : (onFailure c st now).state = .StateHalfOpen) :
    c.state = .StateHalfOpen ∧
    (onFailure c st now).counts.requests = c.counts.requests ∧
    (onFailure c st now).generation = c.generation ∧
    (onFailure c st now).maxRequests = c.maxRequests := by
  unfold onFailure setState toNewGeneration at h ⊢
  simp only at h ⊢
  split_ifs at h ⊢ <;> simp_all

theorem quotaInv_current (cb : CircuitBreaker) (n : Nat) (now : Int) (h : quotaInv cb n)
    (hS : (currentStateCB cb now).state = .StateHalfOpen) :
    (currentStateCB cb now).counts.requests
        = (if (currentStateCB cb now).generation = cb.generation then n else 0) ∧
    (if (currentStateCB cb now).generation = cb.generation then n else 0) ≤ cb.maxRequests := by
  rcases currentStateCB_halfOpen_inv cb now hS with hc | ⟨hc, hg⟩
  · rw [hc] at hS ⊢
    simpa using h hS
  · rw [if_neg hg, hc]
    simp

theorem quotaInv_request (cb : CircuitBreaker) (n : Nat) (now : Int)
    (hty : cb.maxRequests < 4294967296) (h : quotaInv cb n) :
    quotaInv (step cb (.request now)) (stepAdmitted cb n (.request now)) := by
  have hmr := currentStateCB_maxRequests cb now
  intro hH
  simp only [stepAdmitted, step] at hH ⊢
  by_cases hO : (currentStateCB cb now).state = .StateOpen
  · have hb : beforeRequest cb now = (currentStateCB cb now, (currentStateCB cb now).generation,
        some "circuit breaker is open") := by
      rw [beforeRequest_eq, if_pos hO]
    simp only [hb] at hH
    rw [hO] at hH
    exact absurd hH (by decide)
  · by_cases hQ : (currentStateCB cb now).state = .StateHalfOpen ∧
        (currentStateCB cb now).counts.requests ≥ (currentStateCB cb now).maxRequests
    · have hb : beforeRequest cb now = (currentStateCB cb now,
          (currentStateCB cb now).generation,
          some "circuit breaker is half-open and max requests reached") := by
        rw [beforeRequest_eq, if_neg hO, if_pos hQ]
      simp only [hb, reduceCtorEq, if_false] at hH ⊢
      rw [hmr]
      exact quotaInv_current cb n now h hH
    · have hb : beforeRequest cb now = (admitted (currentStateCB cb now),
          (currentStateCB cb now).generation, none) := by
        rw [beforeRequest_eq, if_neg hO, if_neg hQ]
      simp only [hb, if_true] at hH ⊢
      have hS : (currentStateCB cb now).state = .StateHalfOpen := hH
      have hlt : (currentStateCB cb now).counts.requests < cb.maxRequests := by
        rw [← hmr]
        by_contra hcon
        exact hQ ⟨hS, by omega⟩
      obtain ⟨c1, c2⟩ := quotaInv_current cb n now h hS
      have e1 : (admitted (currentStateCB cb now)).generation
          = (currentStateCB cb now).generation := rfl
      have e2 : (admitted (currentStateCB cb now)).maxRequests = cb.maxRequests := hmr
      have e3 : (admitted (currentStateCB cb now)).counts.requests
          = ((currentStateCB cb now).counts.requests + 1) % 4294967296 := rfl
      rw [e1, e2, e3]
      omega

theorem quotaInv_record (cb : CircuitBreaker) (n : Nat) (now : Int) (before : Nat)
    (success : Bool) (h : quotaInv cb n) :
    quotaInv (step cb (.record now before success))
      (stepAdmitted cb n (.record now before success)) := by
  have hmr := currentStateCB_maxRequests cb now
  intro hH
  simp only [stepAdmitted, step] at hH ⊢
  by_cases hG : (currentStateCB cb now).generation ≠ before
  · have ha : afterRequest cb now before success = currentStateCB cb now := by
      rw [afterRequest_eq, if_pos hG]
    simp only [ha] at hH ⊢
    rw [hmr]
    exact quotaInv_current cb n now h hH
  · cases success
    · have ha : afterRequest cb now before false
          = onFailure (currentStateCB cb now) (currentStateCB cb now).state now := by
        rw [afterRequest_eq, if_neg hG]
        simp
      simp only [ha] at hH ⊢
      obtain ⟨a1, a2, a3, a4⟩ := onFailure_halfOpen_inv _ _ _ hH
      rw [a2, a3, a4, hmr]
      exact quotaInv_current cb n now h a1
    · have ha : afterRequest cb now before true
          = onSuccess (currentStateCB cb now) (currentStateCB cb now).state now := by
        rw [afterRequest_eq, if_neg hG]
        simp
      simp only [ha] at hH ⊢
      obtain ⟨a1, a2, a3, a4⟩ := onSuccess_halfOpen_inv _ _ _ hH
      rw [a2, a3, a4, hmr]
      exact quotaInv_current cb n now h a1

theorem onSuccess_maxRequests (c : CircuitBreaker) (st : State) (now : Int) :
    (onSuccess c st now).maxRequests = c.maxRequests := by
  unfold onSuccess setState toNewGeneration
  simp only
  split_ifs <;> rfl

theorem onFailure_maxRequests (c : CircuitBreaker) (st : State) (now : Int) :
    (onFailure c st now).maxRequests = c.maxRequests := by
  unfold onFailure setState toNewGeneration
  simp only
  split_ifs <;> rfl

theorem beforeRequest_maxRequests (cb : CircuitBreaker) (now : Int) :
    (beforeRequest cb now).1.maxRequests = cb.maxRequests := by
  rw [beforeRequest_eq]
  split_ifs <;> exact currentStateCB_maxRequests cb now

theorem afterRequest_maxRequests (cb : CircuitBreaker) (now : Int) (before : Nat)
    (success : Bool) : (afterRequest cb now before success).maxRequests = cb.maxRequests := by
  rw [afterRequest_eq]
  split_ifs
  · exact currentStateCB_maxRequests cb now
  · rw [onSuccess_maxRequests]; exact currentStateCB_maxRequests cb now
  · rw [onFailure_maxRequests]; exact currentStateCB_maxRequests cb now

theorem step_maxRequests_eq (cb : CircuitBreaker) (e : Event) :
    (step cb e).maxRequests = cb.maxRequests := by
  cases e with
  | request now => exact beforeRequest_maxRequests cb now
  | record now before success => exact afterRequest_maxRequests cb now before success

theorem quotaInv_runAdmitted (es : List Event) :
    ∀ (cb : CircuitBreaker) (n : Nat), cb.maxRequests < 4294967296 → quotaInv cb n →
      quotaInv (runAdmitted cb n es).1 (runAdmitted cb n es).2 ∧
      (runAdmitted cb n es).1.maxRequests = cb.maxRequests := by
  induction es with
  | nil => intro cb n _ h; exact ⟨h, rfl⟩
  | cons e es ih =>
    intro cb n hty h
    have hm := step_maxRequests_eq cb e
    have hstep : quotaInv (step cb e) (stepAdmitted cb n e) := by
      cases e with
      | request now => exact quotaInv_request cb n now hty h
      | record now before success => exact quotaInv_record cb n now before success h
    obtain ⟨b1, b2⟩ := ih (step cb e) (stepAdmitted cb n e) (by rw [hm]; exact hty) hstep
    exact ⟨b1, by rw [← hm]; exact b2⟩

theorem runAdmitted_fst (es : List Event) :
    ∀ (cb : CircuitBreaker) (n : Nat), (runAdmitted cb n es).1 = run cb es := by
  induction es with
  | nil => intro cb n; rfl
  | cons e es ih => intro cb n; simp only [runAdmitted, run, List.foldl_cons]; exact ih _ _

/-! ## Rejections -/

/-- C5: for every breaker that is Open at a clock reading not later than its expiry,
Execute returns the error "circuit breaker is open", does not invoke the operation (the
world is untouched, no panic is re-raised) and leaves the whole breaker, hence its state,
generation, expiry and the five counts, exactly as it was. -/
theorem C5_open_rejects_unchanged {E W : Type} (cb : CircuitBreaker) (t1 t2 : Int)
    (req : W → Outcome E × W) (w : W) (hs : cb.state = .StateOpen) (hw : t1 ≤ cb.expiry) :
    (Execute cb t1 t2 req w).err = some (.errorf "circuit breaker is open") ∧
    (Execute cb t1 t2 req w).world = w ∧
    (Execute cb t1 t2 req w).panicked = false ∧
    (Execute cb t1 t2 req w).cb = cb ∧
    (Execute cb t1 t2 req w).cb.state = cb.state ∧
    (Execute cb t1 t2 req w).cb.generation = cb.generation ∧
    (Execute cb t1 t2 req w).cb.expiry = cb.expiry ∧
    (Execute cb t1 t2 req w).cb.counts = cb.counts := by
  rw [Execute_open_early cb t1 t2 req w hs hw]
  exact ⟨rfl, rfl, rfl, rfl, rfl, rfl, rfl, rfl⟩

/-- C5 at the scenario breaker tripped at clock 4 (expiry 1000000004): the call whose clock
is exactly the expiry is rejected, the counter world stays at 7 and the breaker is the
same. -/
theorem C5_open_rejects_unchanged_witness :
    (Execute (scenarioOpen 4) 1000000004 1000000005 successFunc 7).err
      = some (.errorf "circuit breaker is open") ∧
    (Execute (scenarioOpen 4) 1000000004 1000000005 successFunc 7).world = 7 ∧
    (Execute (scenarioOpen 4) 1000000004 1000000005 successFunc 7).cb = scenarioOpen 4 := by
  have h := C5_open_rejects_unchanged (scenarioOpen 4) 1000000004 1000000005 successFunc 7
    rfl (by decide)
  exact ⟨h.1, h.2.1, h.2.2.2.1⟩

/-- C6: for every Half-Open breaker, (a) beforeRequest admits the call exactly when
counts.requests is below maxRequests; (b) an admitted call runs the operation once and
Execute returns its result; (c) otherwise Execute returns the error "circuit breaker is
half-open and max requests reached", does not invoke the operation and leaves the breaker
as it was; and (d) whenever the breaker is what a history of beforeRequest / afterRequest
critical sections (in any interleaving) makes of New(maxRequests, ...) with a uint32
maxRequests, counts.requests is the number of calls admitted in the current generation and
it does not exceed maxRequests. -/
theorem C6_halfOpen_quota {E W : Type} (cb : CircuitBreaker) (t1 t2 : Int)
    (req : W → Outcome E × W) (w : W) (hs : cb.state = .StateHalfOpen) :
    ((beforeRequest cb t1).2.2 = none ↔ cb.counts.requests < cb.maxRequests) ∧
    (cb.counts.requests < cb.maxRequests → ∀ err w1, req w = (.returns err, w1) →
      (Execute cb t1 t2 req w).err = err.map .ofReq ∧ (Execute cb t1 t2 req w).world = w1) ∧
    (¬ cb.counts.requests < cb.maxRequests →
      Execute cb t1 t2 req w =
        { cb := cb,
          err := some (.errorf "circuit breaker is half-open and max requests reached"),
          panicked := false, world := w }) ∧
    (∀ (maxRequests : Nat) (interval timeout : Int) (consecutiveFailures : Nat) (t0 : Int)
        (es : List Event), maxRequests < 4294967296 →
      run (New maxRequests interval timeout consecutiveFailures t0) es = cb →
      cb.counts.requests
        = (runAdmitted (New maxRequests interval timeout consecutiveFailures t0) 0 es).2 ∧
      cb.counts.requests ≤ cb.maxRequests ∧ cb.maxRequests = maxRequests) := by
  have hb := beforeRequest_halfOpen cb t1 hs
  refine ⟨?_, ?_, ?_, ?_⟩
  · by_cases hq : cb.counts.requests < cb.maxRequests
    · rw [hb, if_neg (by omega)]
      simp [hq]
    · rw [hb, if_pos (by omega)]
      simp [hq]
  · intro hq err w1 hreq
    rw [Execute_halfOpen cb t1 t2 req w err w1 hs hq hreq]
    exact ⟨rfl, rfl⟩
  · intro hq
    rw [if_pos (by omega)] at hb
    exact Execute_of_reject cb cb _ _ t1 t2 req w hb
  · intro maxRequests interval timeout consecutiveFailures t0 es hty hrun
    have h0 : quotaInv (New maxRequests interval timeout consecutiveFailures t0) 0 := by
      intro h
      simp [New, toNewGeneration] at h
    obtain ⟨b1, b2⟩ := quotaInv_runAdmitted es
      (New maxRequests interval timeout consecutiveFailures t0) 0 hty h0
    rw [runAdmitted_fst, hrun] at b1 b2
    obtain ⟨c1, c2⟩ := b1 hs
    exact ⟨c1, by omega, b2⟩

/-- C6 at New(1, 100, 100, 1) created at clock 0: a call is admitted at clock 1 and fails
at clock 2 (trip), a second call is admitted at clock 200 in Half-Open and is still in
flight; the Execute call at clock 201 is rejected with the quota error, the counter world
stays at 5, and the request count 1 is the number of calls admitted in this generation. -/
theorem C6_halfOpen_quota_witness :
    (run (New 1 100 100 1 0) [.request 1, .record 2 1 false, .request 200]).state
      = .StateHalfOpen ∧
    (Execute (run (New 1 100 100 1 0) [.request 1, .record 2 1 false, .request 200])
      201 202 successFunc 5).err
      = some (.errorf "circuit breaker is half-open and max requests reached") ∧
    (Execute (run (New 1 100 100 1 0) [.request 1, .record 2 1 false, .request 200])
      201 202 successFunc 5).world = 5 ∧
    (run (New 1 100 100 1 0) [.request 1, .record 2 1 false, .request 200]).counts.requests = 1 ∧
    (runAdmitted (New 1 100 100 1 0) 0 [.request 1, .record 2 1 false, .request 200]).2 = 1 := by
  have h := C6_halfOpen_quota
    (run (New 1 100 100 1 0) [.request 1, .record 2 1 false, .request 200])
    201 202 successFunc 5 (by decide)
  have h3 := h.2.2.1 (by decide)
  have h4 := h.2.2.2 1 100 100 1 0 [.request 1, .record 2 1 false, .request 200] (by decide) rfl
  refine ⟨by decide, by rw [h3], by rw [h3], by decide, ?_⟩
  rw [← h4.1]
  decide

/-! ## Generations -/

theorem setState_ne (cb : CircuitBreaker) (s : State) (now : Int) (h : cb.state ≠ s) :
    (setState cb s now).state = s ∧
    (setState cb s now).generation = (cb.generation + 1) % 18446744073709551616 ∧
    (setState cb s now).counts = {} := by
  simp [setState, h, toNewGeneration]

theorem currentStateCB_rollover (cb : CircuitBreaker) (now : Int)
    (hs : cb.state = .StateClosed) (h0 : cb.expiry ≠ 0) (hlt : cb.expiry < now) :
    (currentStateCB cb now).state = .StateClosed ∧
    (currentStateCB cb now).generation = (cb.generation + 1) % 18446744073709551616 ∧
    (currentStateCB cb now).counts = {} := by
  unfold currentStateCB
  rw [hs]
  simp only
  rw [if_pos ⟨h0, hlt⟩]
  simp [toNewGeneration, hs]

theorem currentStateCB_otherwise (cb : CircuitBreaker) (now : Int)
    (h1 : ¬ (cb.state = .StateClosed ∧ cb.expiry ≠ 0 ∧ cb.expiry < now))
    (h2 : ¬ (cb.state = .StateOpen ∧ cb.expiry < now)) :
    currentStateCB cb now = cb := by
  unfold currentStateCB
  cases hs : cb.state
  · simp only
    rw [if_neg]
    rintro ⟨a, b⟩
    exact h1 ⟨hs, a, b⟩
  · rfl
  · simp only
    rw [if_neg]
    intro a
    exact h2 ⟨hs, a⟩

theorem onSuccess_generation (c : CircuitBreaker) (now : Int) :
    ((onSuccess c c.state now).state ≠ c.state →
      c.state = .StateHalfOpen ∧ (onSuccess c c.state now).state = .StateClosed ∧
      (onSuccess c c.state now).generation = (c.generation + 1) % 18446744073709551616 ∧
      (onSuccess c c.state now).counts = {}) ∧
    ((onSuccess c c.state now).state = c.state →
      (onSuccess c c.state now).generation = c.generation) := by
  unfold onSuccess setState toNewGeneration
  simp only
  split_ifs <;> simp_all

theorem onFailure_generation (c : CircuitBreaker) (now : Int) :
    ((onFailure c c.state now).state ≠ c.state →
      (c.state = .StateClosed ∨ c.state = .StateHalfOpen) ∧
      (onFailure c c.state now).state = .StateOpen ∧
      (onFailure c c.state now).generation = (c.generation + 1) % 18446744073709551616 ∧
      (onFailure c c.state now).counts = {}) ∧
    ((onFailure c c.state now).state = c.state →
      (onFailure c c.state now).generation = c.generation) := by
  unfold onFailure setState toNewGeneration
  simp only
  split_ifs <;> simp_all

theorem currentStateCB_generation_cases (cb : CircuitBreaker) (now : Int) :
    (currentStateCB cb now).generation = cb.generation ∨
    (currentStateCB cb now).generation = (cb.generation + 1) % 18446744073709551616 := by
  obtain ⟨mr, iv, tmo, cf, st, g, cnt, ex⟩ := cb
  cases st <;> simp only [currentStateCB, setState, toNewGeneration] <;>
    first | (split_ifs <;> simp) | simp

theorem onSuccess_generation_cases (c : CircuitBreaker) (st : State) (now : Int) :
    (onSuccess c st now).generation = c.generation ∨
    (onSuccess c st now).generation = (c.generation + 1) % 18446744073709551616 := by
  obtain ⟨mr, iv, tmo, cf, s, g, cnt, ex⟩ := c
  simp only [onSuccess, setState, toNewGeneration]
  split_ifs <;> simp

theorem onFailure_generation_cases (c : CircuitBreaker) (st : State) (now : Int) :
    (onFailure c st now).generation = c.generation ∨
    (onFailure c st now).generation = (c.generation + 1) % 18446744073709551616 := by
  obtain ⟨mr, iv, tmo, cf, s, g, cnt, ex⟩ := c
  simp only [onFailure, setState, toNewGeneration]
  split_ifs <;> simp

theorem currentStateCB_generation_le (cb : CircuitBreaker) (now : Int)
    (h : cb.generation + 1 < 18446744073709551616) :
    cb.generation ≤ (currentStateCB cb now).generation ∧
    (currentStateCB cb now).generation ≤ cb.generation + 1 := by
  rcases currentStateCB_generation_cases cb now with h1 | h1 <;> omega

theorem onSuccess_generation_le (c : CircuitBreaker) (st : State) (now : Int)
    (h : c.generation + 1 < 18446744073709551616) :
    c.generation ≤ (onSuccess c st now).generation ∧
    (onSuccess c st now).generation ≤ c.generation + 1 := by
  rcases onSuccess_generation_cases c st now with h1 | h1 <;> omega

theorem onFailure_generation_le (c : CircuitBreaker) (st : State) (now : Int)
    (h : c.generation + 1 < 18446744073709551616) :
    c.generation ≤ (onFailure c st now).generation ∧
    (onFailure c st now).generation ≤ c.generation + 1 := by
  rcases onFailure_generation_cases c st now with h1 | h1 <;> omega

theorem beforeRequest_generation (cb : CircuitBreaker) (now : Int) :
    (beforeRequest cb now).1.generation = (currentStateCB cb now).generation ∧
    (beforeRequest cb now).1.state = (currentStateCB cb now).state ∧
    (beforeRequest cb now).2.1 = (currentStateCB cb now).generation := by
  rw [beforeRequest_eq]
  split_ifs <;> exact ⟨rfl, rfl, rfl⟩

theorem step_generation_le (cb : CircuitBreaker) (e : Event)
    (h : cb.generation + 2 < 18446744073709551616) :
    cb.generation ≤ (step cb e).generation ∧ (step cb e).generation ≤ cb.generation + 2 := by
  have hc := currentStateCB_generation_le cb
  cases e with
  | request now =>
    simp only [step]
    rw [(beforeRequest_generation cb now).1]
    have := hc now (by omega)
    omega
  | record now before success =>
    simp only [step]
    rw [afterRequest_eq]
    have h1 := hc now (by omega)
    have h2 := onSuccess_generation_le (currentStateCB cb now) (currentStateCB cb now).state now
      (by omega)
    have h3 := onFailure_generation_le (currentStateCB cb now) (currentStateCB cb now).state now
      (by omega)
    split_ifs <;> omega

theorem run_generation_le (es : List Event) :
    ∀ cb : CircuitBreaker, cb.generation + 2 * es.length < 18446744073709551616 →
      cb.generation ≤ (run cb es).generation ∧
      (run cb es).generation ≤ cb.generation + 2 * es.length := by
  induction es with
  | nil => intro cb _; simp [run]
  | cons e es ih =>
    intro cb h
    simp only [List.length_cons] at h ⊢
    have h1 := step_generation_le cb e (by omega)
    have h2 := ih (step cb e) (by omega)
    simp only [run, List.foldl_cons] at h2 ⊢
    omega

/-- C7: for every breaker and every call admitted in generation g, if the generation that
currentState returns when the outcome is recorded differs from g, afterRequest changes
nothing beyond the lazy evaluation itself: the breaker afterwards is the one currentState
leaves, so no count changes and no transition is caused by the outcome, whether it is a
success or a failure and whatever made the generation advance. -/
theorem C7_stale_outcome_discarded (cb : CircuitBreaker) (now : Int) (g : Nat)
    (success : Bool) (hstale : (currentState cb now).2.2 ≠ g) :
    afterRequest cb now g success = (currentState cb now).1 ∧
    (afterRequest cb now g success).counts = (currentState cb now).1.counts ∧
    (afterRequest cb now g success).state = (currentState cb now).1.state ∧
    (afterRequest cb now g success).generation = (currentState cb now).1.generation ∧
    step cb (.record now g success) = currentStateCB cb now := by
  have hstale1 : (currentStateCB cb now).generation ≠ g := hstale
  have h : afterRequest cb now g success = currentStateCB cb now := by
    rw [afterRequest_eq, if_pos hstale1]
  have hc : (currentState cb now).1 = currentStateCB cb now := rfl
  simp only [step]
  rw [hc, h]
  exact ⟨rfl, rfl, rfl, rfl, rfl⟩

/-- C7 at New(3, 1s, 1s, 1) created at clock 0: calls A and B are admitted in generation 1
at clocks 1 and 2, B fails at clock 3 and trips the breaker (generation 2); the success of
A recorded at clock 4 leaves the breaker Open with zero counts. -/
theorem C7_stale_outcome_discarded_witness :
    (run (New 3 1000000000 1000000000 1 0) [.request 1, .request 2, .record 3 1 false]).generation
      = 2 ∧
    afterRequest (run (New 3 1000000000 1000000000 1 0) [.request 1, .request 2, .record 3 1 false])
      4 1 true
      = run (New 3 1000000000 1000000000 1 0) [.request 1, .request 2, .record 3 1 false] ∧
    (afterRequest (run (New 3 1000000000 1000000000 1 0) [.request 1, .request 2, .record 3 1 false])
      4 1 true).state = .StateOpen ∧
    (afterRequest (run (New 3 1000000000 1000000000 1 0) [.request 1, .request 2, .record 3 1 false])
      4 1 true).counts = {} := by
  have h := C7_stale_outcome_discarded
    (run (New 3 1000000000 1000000000 1 0) [.request 1, .request 2, .record 3 1 false]) 4 1 true
    (by decide)
  refine ⟨by decide, ?_, ?_, ?_⟩
  · rw [h.1]; decide
  · rw [h.2.2.1]; decide
  · rw [h.2.1]; decide

/-- C8 as stated fails at the top of the uint64 range: a Closed breaker in generation
18446744073709551615 trips on a failing call, and the Closed-to-Open transition leaves the
generation at 0: it did not grow by one, and it decreased. -/
theorem C8_counterexample :
    lastGeneration.wellTyped ∧
    (Execute lastGeneration 1 2 failFunc 0).cb.state = .StateOpen ∧
    (Execute lastGeneration 1 2 failFunc 0).cb.generation = 0 ∧
    (Execute lastGeneration 1 2 failFunc 0).cb.generation ≠ lastGeneration.generation + 1 ∧
    (Execute lastGeneration 1 2 failFunc 0).cb.generation < lastGeneration.generation := by
  decide

/-- C8 (amended): every state transition (setState to a different state; at its call
sites Closed to Open and Half-Open to Open in onFailure, Half-Open to Closed in onSuccess,
Open to Half-Open in currentState) and every Closed-window rollover (Closed, non-zero
expiry strictly before now) sets the generation to (generation + 1) mod 2^64, which is
generation + 1 whenever generation + 1 fits a uint64, and sets the five counts to zero; a
rollover leaves the state Closed; nothing else changes the generation (currentState
otherwise returns the breaker as it is, onSuccess and onFailure keep the generation when
they keep the state, beforeRequest ends in the generation currentState left, afterRequest
is currentState followed by nothing, onSuccess or onFailure); and along every history
that stays below 2^64 the generation never decreases. -/
theorem C8_generation_discipline (cb : CircuitBreaker) (now : Int) (s : State)
    (before : Nat) (success : Bool) (es : List Event) :
    (cb.state ≠ s →
      (setState cb s now).state = s ∧
      (setState cb s now).generation = (cb.generation + 1) % 18446744073709551616 ∧
      (cb.generation + 1 < 18446744073709551616 →
        (setState cb s now).generation = cb.generation + 1) ∧
      (setState cb s now).counts = {}) ∧
    (cb.state = .StateClosed ∧ cb.expiry ≠ 0 ∧ cb.expiry < now →
      (currentStateCB cb now).state = .StateClosed ∧
      (currentStateCB cb now).generation = (cb.generation + 1) % 18446744073709551616 ∧
      (cb.generation + 1 < 18446744073709551616 →
        (currentStateCB cb now).generation = cb.generation + 1) ∧
      (currentStateCB cb now).counts = {}) ∧
    (cb.state = .StateOpen ∧ cb.expiry < now →
      currentStateCB cb now = setState cb .StateHalfOpen now ∧
      (currentStateCB cb now).state = .StateHalfOpen) ∧
    (¬ (cb.state = .StateClosed ∧ cb.expiry ≠ 0 ∧ cb.expiry < now) →
      ¬ (cb.state = .StateOpen ∧ cb.expiry < now) → currentStateCB cb now = cb) ∧
    ((onSuccess cb cb.state now).state ≠ cb.state →
      cb.state = .StateHalfOpen ∧ (onSuccess cb cb.state now).state = .StateClosed ∧
      (onSuccess cb cb.state now).generation = (cb.generation + 1) % 18446744073709551616 ∧
      (onSuccess cb cb.state now).counts = {}) ∧
    ((onSuccess cb cb.state now).state = cb.state →
      (onSuccess cb cb.state now).generation = cb.generation) ∧
    ((onFailure cb cb.state now).state ≠ cb.state →
      (cb.state = .StateClosed ∨ cb.state = .StateHalfOpen) ∧
      (onFailure cb cb.state now).state = .StateOpen ∧
      (onFailure cb cb.state now).generation = (cb.generation + 1) % 18446744073709551616 ∧
      (onFailure cb cb.state now).counts = {}) ∧
    ((onFailure cb cb.state now).state = cb.state →
      (onFailure cb cb.state now).generation = cb.generation) ∧
    (beforeRequest cb now).1.generation = (currentStateCB cb now).generation ∧
    (afterRequest cb now before success = currentStateCB cb now ∨
      afterRequest cb now before success
        = onSuccess (currentStateCB cb now) (currentStateCB cb now).state now ∨
      afterRequest cb now before success
        = onFailure (currentStateCB cb now) (currentStateCB cb now).state now) ∧
    (cb.generation + 2 * es.length < 18446744073709551616 →
      cb.generation ≤ (run cb es).generation) := by
  refine ⟨?_, ?_, ?_, currentStateCB_otherwise cb now, (onSuccess_generation cb now).1,
    (onSuccess_generation cb now).2, (onFailure_generation cb now).1,
    (onFailure_generation cb now).2, (beforeRequest_generation cb now).1, ?_, ?_⟩
  · intro h
    obtain ⟨a1, a2, a3⟩ := setState_ne cb s now h
    exact ⟨a1, a2, fun hb => by rw [a2]; omega, a3⟩
  · rintro ⟨h1, h2, h3⟩
    obtain ⟨a1, a2, a3⟩ := currentStateCB_rollover cb now h1 h2 h3
    exact ⟨a1, a2, fun hb => by rw [a2]; omega, a3⟩
  · rintro ⟨h1, h2⟩
    have h : currentStateCB cb now = setState cb .StateHalfOpen now := by
      unfold currentStateCB
      rw [h1]
      simp only
      rw [if_pos h2]
    refine ⟨h, ?_⟩
    rw [h]
    exact (setState_ne cb .StateHalfOpen now (by rw [h1]; decide)).1
  · rw [afterRequest_eq]
    split_ifs
    · exact Or.inl rfl
    · exact Or.inr (Or.inl rfl)
    · exact Or.inr (Or.inr rfl)
  · intro h
    exact (run_generation_le es cb h).1

/-- C8 (amended) at New(2, 1s, 1s, 1) created at clock 0 (generation 1): tripping it at
clock 5 gives generation 2 and zero counts; the rollover at clock 1000000001 gives
generation 2, zero counts and state Closed; and the generation after a history of three
events is not below 1. -/
theorem C8_generation_discipline_witness :
    (setState (New 2 1000000000 1000000000 1 0) .StateOpen 5).generation = 2 ∧
    (setState (New 2 1000000000 1000000000 1 0) .StateOpen 5).counts = {} ∧
    (currentStateCB (New 2 1000000000 1000000000 1 0) 1000000001).state = .StateClosed ∧
    (currentStateCB (New 2 1000000000 1000000000 1 0) 1000000001).generation = 2 ∧
    (currentStateCB (New 2 1000000000 1000000000 1 0) 1000000001).counts = {} ∧
    (New 2 1000000000 1000000000 1 0).generation
      ≤ (run (New 2 1000000000 1000000000 1 0)
          [.request 1, .record 2 1 false, .request 1000000003]).generation := by
  have h := C8_generation_discipline (New 2 1000000000 1000000000 1 0) 5 .StateOpen 1 false
    [.request 1, .record 2 1 false, .request 1000000003]
  have h2 := C8_generation_discipline (New 2 1000000000 1000000000 1 0) 1000000001 .StateOpen
    1 false []
  have a := h.1 (by decide)
  have b := h2.2.1 (by decide)
  exact ⟨a.2.2.1 (by decide), a.2.2.2, b.1, b.2.2.1 (by decide), b.2.2.2,
    h.2.2.2.2.2.2.2.2.2.2 (by decide)⟩

/-- C9: for every breaker and every operation that returns normally, Execute either
returns one of the two rejection errors made by beforeRequest, and then the world is
untouched (the operation was not invoked), or returns exactly the value the operation
returned (nil exactly when the operation returned nil), and then the world is the one a
single run of the operation produced; Execute itself does not panic. -/
theorem C9_execute_result {E W : Type} (cb : CircuitBreaker) (t1 t2 : Int)
    (req : W → Outcome E × W) (w : W) (err : Option E) (w1 : W)
    (hreq : req w = (.returns err, w1)) :
    ((((Execute cb t1 t2 req w).err = some (.errorf "circuit breaker is open") ∨
        (Execute cb t1 t2 req w).err
          = some (.errorf "circuit breaker is half-open and max requests reached")) ∧
        (beforeRequest cb t1).2.2 ≠ none ∧
        (Execute cb t1 t2 req w).world = w) ∨
      ((Execute cb t1 t2 req w).err = err.map .ofReq ∧
        ((Execute cb t1 t2 req w).err = none ↔ err = none) ∧
        (beforeRequest cb t1).2.2 = none ∧
        (Execute cb t1 t2 req w).world = w1)) ∧
    (Execute cb t1 t2 req w).panicked = false := by
  by_cases hO : (currentStateCB cb t1).state = .StateOpen
  · have hb : beforeRequest cb t1 = (currentStateCB cb t1, (currentStateCB cb t1).generation,
        some "circuit breaker is open") := by
      rw [beforeRequest_eq, if_pos hO]
    rw [Execute_of_reject cb _ _ _ t1 t2 req w hb, hb]
    exact ⟨Or.inl ⟨Or.inl rfl, by simp, rfl⟩, rfl⟩
  · by_cases hQ : (currentStateCB cb t1).state = .StateHalfOpen ∧
        (currentStateCB cb t1).counts.requests ≥ (currentStateCB cb t1).maxRequests
    · have hb : beforeRequest cb t1 = (currentStateCB cb t1,
          (currentStateCB cb t1).generation,
          some "circuit breaker is half-open and max requests reached") := by
        rw [beforeRequest_eq, if_neg hO, if_pos hQ]
      rw [Execute_of_reject cb _ _ _ t1 t2 req w hb, hb]
      exact ⟨Or.inl ⟨Or.inr rfl, by simp, rfl⟩, rfl⟩
    · have hb : beforeRequest cb t1 = (admitted (currentStateCB cb t1),
          (currentStateCB cb t1).generation, none) := by
        rw [beforeRequest_eq, if_neg hO, if_neg hQ]
      rw [Execute_of_pass cb _ _ t1 t2 req w err w1 hb hreq, hb]
      refine ⟨Or.inr ⟨rfl, ?_, rfl, rfl⟩, rfl⟩
      cases err <;> simp

/-- C9 on three breakers with the counter world at 0: the fresh New(3, 1s, 1s, 2) runs
the failing operation once and returns its error; the tripped breaker rejects at clock 5
without running the operation. -/
theorem C9_execute_result_witness :
    (Execute (New 3 1000000000 1000000000 2 0) 1 2 failFunc 0).err
      = some (.ofReq "test error") ∧
    (Execute (New 3 1000000000 1000000000 2 0) 1 2 failFunc 0).world = 1 ∧
    (Execute (scenarioOpen 4) 5 6 failFunc 0).err = some (.errorf "circuit breaker is open") ∧
    (Execute (scenarioOpen 4) 5 6 failFunc 0).world = 0 := by
  have h1 := C9_execute_result (New 3 1000000000 1000000000 2 0) 1 2 failFunc 0
    (some "test error") 1 rfl
  have h2 := C9_execute_result (scenarioOpen 4) 5 6 failFunc 0 (some "test error") 1 rfl
  refine ⟨?_, ?_, ?_, ?_⟩
  · rcases h1.1 with ⟨_, hb, _⟩ | ⟨he, _, _, _⟩
    · exact absurd (by decide) hb
    · exact he
  · rcases h1.1 with ⟨_, hb, _⟩ | ⟨_, _, _, hw⟩
    · exact absurd (by decide) hb
    · exact hw
  · rcases h2.1 with ⟨_, _, _⟩ | ⟨_, _, hb, _⟩
    · decide
    · exact absurd hb (by decide)
  · rcases h2.1 with ⟨_, _, hw⟩ | ⟨_, _, hb, _⟩
    · exact hw
    · exact absurd hb (by decide)

/-! ## Counting inside one Closed generation -/

theorem onFailure_closed_stays (cb : CircuitBreaker) (now : Int)
    (h : (onFailure cb .StateClosed now).state = .StateClosed) (hs : cb.state = .StateClosed) :
    onFailure cb .StateClosed now =
      { cb with counts :=
        { cb.counts with
          totalFailures := (cb.counts.totalFailures + 1) % 4294967296
          consecutiveFailures := (cb.counts.consecutiveFailures + 1) % 4294967296
          consecutiveSuccesses := 0 } } := by
  unfold onFailure setState toNewGeneration at h ⊢
  simp only at h ⊢
  split_ifs at h ⊢ <;> simp_all

theorem onSuccess_closed (cb : CircuitBreaker) (now : Int) :
    onSuccess cb .StateClosed now =
      { cb with counts :=
        { cb.counts with
          totalSuccesses := (cb.counts.totalSuccesses + 1) % 4294967296
          consecutiveSuccesses := (cb.counts.consecutiveSuccesses + 1) % 4294967296
          consecutiveFailures := 0 } } := by
  simp [onSuccess]

/-- Inside one Closed generation (no rollover at any clock reading, no trip after any
call, no panic) the three counters reported by Stats grow, modulo 2^32, by the number of
calls that returned nil, that returned an error, and by their sum. -/
theorem closed_run_counts {E W : Type} (calls : List (Call E W)) :
    ∀ (cb : CircuitBreaker) (w : W), cb.state = .StateClosed →
      cb.counts.requests < 4294967296 → cb.counts.totalSuccesses < 4294967296 →
      cb.counts.totalFailures < 4294967296 →
      (∀ c ∈ calls, noRollover cb c.t1 ∧ noRollover cb c.t2) →
      (∀ k, k ≤ calls.length → (ExecuteAll cb (calls.take k) w).1.state = .StateClosed) →
      (∀ c ∈ calls, ∀ w0, (c.req w0).1 ≠ .panics) →
      (ExecuteAll cb calls w).1.counts.totalSuccesses
        = (cb.counts.totalSuccesses
            + ((ExecuteLog cb calls w).filter Executed.returnedNil).length) % 4294967296 ∧
      (ExecuteAll cb calls w).1.counts.totalFailures
        = (cb.counts.totalFailures
            + ((ExecuteLog cb calls w).filter Executed.returnedError).length) % 4294967296 ∧
      (ExecuteAll cb calls w).1.counts.requests
        = (cb.counts.requests + calls.length) % 4294967296 ∧
      ((ExecuteLog cb calls w).filter Executed.returnedNil).length
        + ((ExecuteLog cb calls w).filter Executed.returnedError).length = calls.length ∧
      (ExecuteAll cb calls w).1.generation = cb.generation := by
  induction calls with
  | nil =>
    intro cb w _ h1 h2 h3 _ _ _
    simp only [ExecuteAll_nil, ExecuteLog, List.filter_nil, List.length_nil, Nat.add_zero]
    refine ⟨?_, ?_, ?_, trivial, trivial⟩ <;> omega
  | cons c rest ih =>
    intro cb w hs h1 h2 h3 hwin hstay hnp
    have hc := hwin c (List.mem_cons_self _ _)
    have hnp0 := hnp c (List.mem_cons_self _ _) w
    obtain ⟨err, hout⟩ : ∃ err, (c.req w).1 = .returns err := by
      cases ho : (c.req w).1 with
      | returns err => exact ⟨err, rfl⟩
      | panics => exact absurd ho hnp0
    have hreq : c.req w = (.returns err, (c.req w).2) := by rw [← hout]
    have hex := Execute_closed cb c.t1 c.t2 c.req w err _ hs hc.1 hc.2 hreq
    have hst1 := hstay 1 (by simp)
    simp only [List.take_succ_cons, List.take_zero, ExecuteAll_cons, ExecuteAll_nil] at hst1
    have hrest : ∀ k, k ≤ rest.length →
        (ExecuteAll (Execute cb c.t1 c.t2 c.req w).cb (rest.take k)
          (Execute cb c.t1 c.t2 c.req w).world).1.state = .StateClosed := by
      intro k hk
      have := hstay (k + 1) (by simp; omega)
      simpa only [List.take_succ_cons, ExecuteAll_cons] using this
    simp only [ExecuteAll_cons, ExecuteLog, List.length_cons]
    cases err with
    | none =>
      have hcb : (Execute cb c.t1 c.t2 c.req w).cb = onSuccess (admitted cb) .StateClosed c.t2 := by
        rw [hex]; rfl
      have herr : (Execute cb c.t1 c.t2 c.req w).err = none := by rw [hex]; rfl
      have hpan : (Execute cb c.t1 c.t2 c.req w).panicked = false := by rw [hex]
      rw [onSuccess_closed] at hcb
      have hwin2 : ∀ d ∈ rest, noRollover (Execute cb c.t1 c.t2 c.req w).cb d.t1 ∧
          noRollover (Execute cb c.t1 c.t2 c.req w).cb d.t2 := by
        intro d hd
        rw [hcb]
        exact hwin d (List.mem_cons_of_mem _ hd)
      obtain ⟨a1, a2, a3, a4, a5⟩ := ih (Execute cb c.t1 c.t2 c.req w).cb
        (Execute cb c.t1 c.t2 c.req w).world (by rw [hcb]; exact hs)
        (by rw [hcb]; simp only [admitted]; omega) (by rw [hcb]; simp only [admitted]; omega)
        (by rw [hcb]; simp only [admitted]; omega) hwin2 hrest
        (fun d hd => hnp d (List.mem_cons_of_mem _ hd))
      have hn : (Execute cb c.t1 c.t2 c.req w).returnedNil = true := by
        simp [Executed.returnedNil, herr, hpan]
      have he : (Execute cb c.t1 c.t2 c.req w).returnedError = false := by
        simp [Executed.returnedError, herr]
      have f1 : (Execute cb c.t1 c.t2 c.req w).cb.counts.totalSuccesses
          = (cb.counts.totalSuccesses + 1) % 4294967296 := by rw [hcb]; rfl
      have f2 : (Execute cb c.t1 c.t2 c.req w).cb.counts.totalFailures
          = cb.counts.totalFailures := by rw [hcb]; rfl
      have f3 : (Execute cb c.t1 c.t2 c.req w).cb.counts.requests
          = (cb.counts.requests + 1) % 4294967296 := by rw [hcb]; rfl
      have f4 : (Execute cb c.t1 c.t2 c.req w).cb.generation = cb.generation := by
        rw [hcb]; rfl
      rw [List.filter_cons_of_pos hn, List.filter_cons_of_neg (by simp [he])]
      rw [a1, a2, a3, a5, f1, f2, f3, f4]
      simp only [List.length_cons]
      refine ⟨?_, ?_, ?_, ?_, trivial⟩ <;> first | trivial | omega
    | some e =>
      have hcb : (Execute cb c.t1 c.t2 c.req w).cb = onFailure (admitted cb) .StateClosed c.t2 := by
        rw [hex]; rfl
      have herr : (Execute cb c.t1 c.t2 c.req w).err = some (.ofReq e) := by rw [hex]; rfl
      rw [hcb] at hst1
      rw [onFailure_closed_stays (admitted cb) c.t2 hst1 hs] at hcb
      have hwin2 : ∀ d ∈ rest, noRollover (Execute cb c.t1 c.t2 c.req w).cb d.t1 ∧
          noRollover (Execute cb c.t1 c.t2 c.req w).cb d.t2 := by
        intro d hd
        rw [hcb]
        exact hwin d (List.mem_cons_of_mem _ hd)
      obtain ⟨a1, a2, a3, a4, a5⟩ := ih (Execute cb c.t1 c.t2 c.req w).cb
        (Execute cb c.t1 c.t2 c.req w).world (by rw [hcb]; exact hs)
        (by rw [hcb]; simp only [admitted]; omega) (by rw [hcb]; simp only [admitted]; omega)
        (by rw [hcb]; simp only [admitted]; omega) hwin2 hrest
        (fun d hd => hnp d (List.mem_cons_of_mem _ hd))
      have hn : (Execute cb c.t1 c.t2 c.req w).returnedNil = false := by
        simp [Executed.returnedNil, herr]
      have he : (Execute cb c.t1 c.t2 c.req w).returnedError = true := by
        simp [Executed.returnedError, herr]
      have f1 : (Execute cb c.t1 c.t2 c.req w).cb.counts.totalSuccesses
          = cb.counts.totalSuccesses := by rw [hcb]; rfl
      have f2 : (Execute cb c.t1 c.t2 c.req w).cb.counts.totalFailures
          = (cb.counts.totalFailures + 1) % 4294967296 := by rw [hcb]; rfl
      have f3 : (Execute cb c.t1 c.t2 c.req w).cb.counts.requests
          = (cb.counts.requests + 1) % 4294967296 := by rw [hcb]; rfl
      have f4 : (Execute cb c.t1 c.t2 c.req w).cb.generation = cb.generation := by
        rw [hcb]; rfl
      rw [List.filter_cons_of_neg (by simp [hn]), List.filter_cons_of_pos he]
      rw [a1, a2, a3, a5, f1, f2, f3, f4]
      simp only [List.length_cons]
      refine ⟨?_, ?_, ?_, ?_, trivial⟩ <;> first | trivial | omega

/-- C10 as stated fails at the top of the uint32 range: the well-typed Closed breaker
whose total_successes stands at 4294967295 runs one more successful call without leaving
its Closed generation, and Stats() then reports total_successes = 0 and requests = 0: the
successful call did not add one. -/
theorem C10_counterexample :
    fullCounts.wellTyped ∧
    fullCounts.Stats.total_successes = 4294967295 ∧
    (successFunc 0).1 = .returns none ∧
    (Execute fullCounts 1 2 successFunc 0).err = none ∧
    (Execute fullCounts 1 2 successFunc 0).world = 1 ∧
    (Execute fullCounts 1 2 successFunc 0).cb.state = .StateClosed ∧
    (Execute fullCounts 1 2 successFunc 0).cb.generation = fullCounts.generation ∧
    (Execute fullCounts 1 2 successFunc 0).cb.Stats.total_successes = 0 ∧
    (Execute fullCounts 1 2 successFunc 0).cb.Stats.requests = 0 ∧
    (Execute fullCounts 1 2 successFunc 0).cb.Stats.total_successes
      ≠ fullCounts.Stats.total_successes + 1 := by
  decide

/-- C10 (amended): for a Closed breaker with uint32 counts that stays in one Closed
generation while a sequence of Execute calls runs to completion (no clock reading rolls
the window over, the breaker is Closed after every call, no operation panics), Stats()
afterwards reports total_successes, total_failures and requests equal modulo 2^32 to their
values before plus the number of calls that returned nil, the number that returned an
error, and the number of calls; the two numbers add up to the number of calls; the
generation is unchanged; and the reports are exact sums whenever the sums fit a uint32. -/
theorem C10_closed_generation_stats {E W : Type} (cb : CircuitBreaker)
    (calls : List (Call E W)) (w : W)
    (hs : cb.state = .StateClosed) (hty : cb.wellTyped)
    (hwin : ∀ c ∈ calls, noRollover cb c.t1 ∧ noRollover cb c.t2)
    (hstay : ∀ k, k ≤ calls.length →
      (ExecuteAll cb (calls.take k) w).1.state = .StateClosed)
    (hnp : ∀ c ∈ calls, ∀ w0, (c.req w0).1 ≠ .panics) :
    (ExecuteAll cb calls w).1.Stats.total_successes
      = (cb.Stats.total_successes
          + ((ExecuteLog cb calls w).filter Executed.returnedNil).length) % 4294967296 ∧
    (ExecuteAll cb calls w).1.Stats.total_failures
      = (cb.Stats.total_failures
          + ((ExecuteLog cb calls w).filter Executed.returnedError).length) % 4294967296 ∧
    (ExecuteAll cb calls w).1.Stats.requests
      = (cb.Stats.requests
          + (((ExecuteLog cb calls w).filter Executed.returnedNil).length
            + ((ExecuteLog cb calls w).filter Executed.returnedError).length)) % 4294967296 ∧
    ((ExecuteLog cb calls w).filter Executed.returnedNil).length
      + ((ExecuteLog cb calls w).filter Executed.returnedError).length = calls.length ∧
    (ExecuteAll cb calls w).1.generation = cb.generation ∧
    (cb.Stats.total_successes
        + ((ExecuteLog cb calls w).filter Executed.returnedNil).length < 4294967296 →
      (ExecuteAll cb calls w).1.Stats.total_successes
        = cb.Stats.total_successes
          + ((ExecuteLog cb calls w).filter Executed.returnedNil).length) ∧
    (cb.Stats.total_failures
        + ((ExecuteLog cb calls w).filter Executed.returnedError).length < 4294967296 →
      (ExecuteAll cb calls w).1.Stats.total_failures
        = cb.Stats.total_failures
          + ((ExecuteLog cb calls w).filter Executed.returnedError).length) ∧
    (cb.Stats.requests + calls.length < 4294967296 →
      (ExecuteAll cb calls w).1.Stats.requests = cb.Stats.requests + calls.length) := by
  obtain ⟨_, _, _, t4, t5, t6, _, _⟩ := hty
  obtain ⟨a1, a2, a3, a4, a5⟩ := closed_run_counts calls cb w hs t4 t5 t6 hwin hstay hnp
  simp only [CircuitBreaker.Stats]
  refine ⟨a1, a2, ?_, a4, a5, ?_, ?_, ?_⟩
  · rw [a3, a4]
  · intro hb
    rw [a1]
    omega
  · intro hb
    rw [a2]
    omega
  · intro hb
    rw [a3]
    omega

/-- C10 (amended) on the run of the package test: New(5, 1s, 1s, 3) created at clock 0,
three successful calls and then two failing calls, all inside the first window: Stats()
reports total_successes = 3, total_failures = 2 and requests = 5. -/
theorem C10_closed_generation_stats_witness :
    (ExecuteAll (New 5 1000000000 1000000000 3 0)
      [⟨1, 2, successFunc⟩, ⟨3, 4, successFunc⟩, ⟨5, 6, successFunc⟩,
       ⟨7, 8, failFunc⟩, ⟨9, 10, failFunc⟩] 0).1.Stats.total_successes = 3 ∧
    (ExecuteAll (New 5 1000000000 1000000000 3 0)
      [⟨1, 2, successFunc⟩, ⟨3, 4, successFunc⟩, ⟨5, 6, successFunc⟩,
       ⟨7, 8, failFunc⟩, ⟨9, 10, failFunc⟩] 0).1.Stats.total_failures = 2 ∧
    (ExecuteAll (New 5 1000000000 1000000000 3 0)
      [⟨1, 2, successFunc⟩, ⟨3, 4, successFunc⟩, ⟨5, 6, successFunc⟩,
       ⟨7, 8, failFunc⟩, ⟨9, 10, failFunc⟩] 0).1.Stats.requests = 5 := by
  have h := C10_closed_generation_stats (New 5 1000000000 1000000000 3 0)
    [⟨1, 2, successFunc⟩, ⟨3, 4, successFunc⟩, ⟨5, 6, successFunc⟩,
     ⟨7, 8, failFunc⟩, ⟨9, 10, failFunc⟩] 0 rfl (by decide)
    (by
      intro c hc
      simp only [List.mem_cons, List.mem_singleton, List.not_mem_nil, or_false] at hc
      rcases hc with rfl | rfl | rfl | rfl | rfl <;> exact ⟨by decide, by decide⟩)
    (by decide)
    (by
      intro c hc w0
      simp only [List.mem_cons, List.mem_singleton, List.not_mem_nil, or_false] at hc
      rcases hc with rfl | rfl | rfl | rfl | rfl <;> simp [successFunc, failFunc])
  obtain ⟨_, _, _, _, _, h6, h7, h8⟩ := h
  exact ⟨(h6 (by decide)).trans (by decide), (h7 (by decide)).trans (by decide),
    (h8 (by decide)).trans (by decide)⟩

/-! ## Reading the state -/

/-- C20 (the code at the failing input): State() returns the stored state and never runs
the lazy evaluation. New(2, 100ms, 100ms, 2) created at clock 0 trips on two failures,
the second recorded at clock 4, so its Open period ends at clock 100000004; State() still
returns "open" although currentState at the later clock 150000004 gives Half-Open. -/
theorem C20_State_reads_stored_state (cb : CircuitBreaker) :
    cb.State = cb.state.String ∧
    (ExecuteAll (New 2 100000000 100000000 2 0)
      [⟨1, 2, failFunc⟩, ⟨3, 4, failFunc⟩] 0).1.expiry = 100000004 ∧
    (ExecuteAll (New 2 100000000 100000000 2 0)
      [⟨1, 2, failFunc⟩, ⟨3, 4, failFunc⟩] 0).1.State = "open" ∧
    (currentState (ExecuteAll (New 2 100000000 100000000 2 0)
      [⟨1, 2, failFunc⟩, ⟨3, 4, failFunc⟩] 0).1 150000004).2.1 = .StateHalfOpen ∧
    (currentState (ExecuteAll (New 2 100000000 100000000 2 0)
      [⟨1, 2, failFunc⟩, ⟨3, 4, failFunc⟩] 0).1 150000004).1.State = "half-open" :=
  ⟨rfl, by decide, by decide, by decide, by decide⟩

end circuitbreaker

namespace podwatcher

/-! ## Extracting backends -/

theorem extractBackends_foldl (port : Int) (pods : List Pod) :
    ∀ acc : List String,
      pods.foldl
        (fun backends pod =>
          if pod.Phase = PodRunning ∧ pod.PodIP ≠ "" then
            backends ++ [sprintfBackend pod.PodIP port]
          else backends)
        acc
      = acc ++ (pods.filter (fun pod => decide (pod.Phase = PodRunning ∧ pod.PodIP ≠ ""))).map
          (fun pod => sprintfBackend pod.PodIP port) := by
  induction pods with
  | nil => intro acc; simp
  | cons p ps ih =>
    intro acc
    rw [List.foldl_cons, ih]
    by_cases h : p.Phase = PodRunning ∧ p.PodIP ≠ ""
    · rw [if_pos h, List.filter_cons_of_pos (by simpa using h)]
      simp
    · rw [if_neg h, List.filter_cons_of_neg (by simpa using h)]

theorem extractBackends_eq (port : Int) (pods : List Pod) :
    extractBackends port pods
      = (pods.filter (fun pod => decide (pod.Phase = PodRunning ∧ pod.PodIP ≠ ""))).map
          (fun pod => sprintfBackend pod.PodIP port) := by
  unfold extractBackends
  rw [extractBackends_foldl]
  simp

theorem extractBackends_perm (port : Int) {l1 l2 : List Pod} (h : l1.Perm l2) :
    (extractBackends port l1).Perm (extractBackends port l2) := by
  rw [extractBackends_eq, extractBackends_eq]
  exact (h.filter _).map _

theorem sprintfBackend_injective (port : Int) (a b : String)
    (h : sprintfBackend a port = sprintfBackend b port) : a = b := by
  unfold sprintfBackend at h
  have h1 := congrArg String.data h
  simp only [String.data_append] at h1
  have h2 : a.data = b.data := by
    have := List.append_cancel_right (by simpa [List.append_assoc] using h1 :
      a.data ++ (":".data ++ (toString port).data) = b.data ++ (":".data ++ (toString port).data))
    exact this
  exact String.ext h2

/-! ## Sorting and comparing -/

theorem sortStrings_sorted (x : List String) : (sortStrings x).Sorted stringLE :=
  List.sorted_insertionSort stringLE x

theorem sortStrings_perm (x : List String) : (sortStrings x).Perm x :=
  List.perm_insertionSort stringLE x

theorem sortStrings_eq_of_perm {x y : List String} (h : x.Perm y) :
    sortStrings x = sortStrings y :=
  List.eq_of_perm_of_sorted ((sortStrings_perm x).trans (h.trans (sortStrings_perm y).symm))
    (sortStrings_sorted x) (sortStrings_sorted y)

theorem sortStrings_of_sorted {x : List String} (h : x.Sorted stringLE) : sortStrings x = x :=
  List.Sorted.insertionSort_eq h

theorem sortStrings_idem (x : List String) : sortStrings (sortStrings x) = sortStrings x :=
  sortStrings_of_sorted (sortStrings_sorted x)

theorem equalLoop_iff : ∀ (a b : List String), a.length = b.length →
    (equalLoop a b = true ↔ a = b)
  | [], [], _ => by simp [equalLoop]
  | [], _ :: _, h => by simp at h
  | _ :: _, [], h => by simp at h
  | x :: xs, y :: ys, h => by
    have ih := equalLoop_iff xs ys (by simpa using h)
    by_cases hxy : x = y
    · simp [equalLoop, hxy, ih]
    · simp [equalLoop, hxy]

theorem equal_iff (a b : List String) : equal a b = true ↔ a = b := by
  unfold equal
  by_cases h : a.length = b.length
  · rw [if_neg (by simpa using h)]
    exact equalLoop_iff a b h
  · rw [if_pos (by simpa using h)]
    constructor
    · intro hf; cases hf
    · intro hab; exact absurd (by rw [hab]) h

/-! ## Claims on the discoverer -/

/-- C11: for every pod list and every configured port p, extractBackends returns, in the
order of the input list, exactly the strings "<ip>:<p>" of the pods whose phase is Running
and whose pod IP is non-empty, and nothing for any other pod; the pods
[{Running,"10.0.0.1"},{Pending,"10.0.0.2"}] with port 3333 give ["10.0.0.1:3333"]. -/
theorem C11_extractBackends_filter_map (port : Int) (pods : List Pod) :
    extractBackends port pods
      = (pods.filter (fun pod => decide (pod.Phase = "Running" ∧ pod.PodIP ≠ ""))).map
          (fun pod => pod.PodIP ++ ":" ++ toString port) ∧
    (∀ a, a ∈ extractBackends port pods ↔
      ∃ pod ∈ pods, pod.Phase = "Running" ∧ pod.PodIP ≠ "" ∧
        a = pod.PodIP ++ ":" ++ toString port) ∧
    extractBackends 3333 [⟨"Running", "10.0.0.1"⟩, ⟨"Pending", "10.0.0.2"⟩]
      = ["10.0.0.1:3333"] := by
  refine ⟨extractBackends_eq port pods, ?_, by decide⟩
  intro a
  rw [extractBackends_eq]
  simp only [List.mem_map, List.mem_filter, decide_eq_true_eq, PodRunning, sprintfBackend]
  constructor
  · rintro ⟨pod, ⟨hm, h1, h2⟩, rfl⟩
    exact ⟨pod, hm, h1, h2, rfl⟩
  · rintro ⟨pod, hm, h1, h2, rfl⟩
    exact ⟨pod, ⟨hm, h1, h2⟩, rfl⟩

/-- C12 as stated fails: two Running pods that report the same pod IP 10.0.0.1 make a new
watcher with port 3333 send ["10.0.0.1:3333", "10.0.0.1:3333"], a list in which the same
address occurs twice. -/
theorem C12_counterexample :
    (updateBackendList (New 3333)
      (.ok [⟨"Running", "10.0.0.1"⟩, ⟨"Running", "10.0.0.1"⟩])).sent
      = some ["10.0.0.1:3333", "10.0.0.1:3333"] ∧
    ¬ (["10.0.0.1:3333", "10.0.0.1:3333"] : List String).Nodup := by
  decide

/-- C12 (amended): whenever updateBackendList sends a list S for a successfully listed
pod list, S is the sorted rearrangement of the extracted addresses: it has one entry per
Running pod with a non-empty pod IP, every address occurs in S as often as pods report its
IP, and S is free of duplicates exactly when the pod IPs of those pods are pairwise
distinct. -/
theorem C12_sent_one_entry_per_pod (w : Watcher) (pods : List Pod) (S : List String)
    (hsent : (updateBackendList w (.ok pods)).sent = some S) :
    S = sortStrings (extractBackends w.backendPort pods) ∧
    S.Perm (extractBackends w.backendPort pods) ∧
    S.length
      = (pods.filter (fun pod => decide (pod.Phase = "Running" ∧ pod.PodIP ≠ ""))).length ∧
    (∀ ip : String, S.count (ip ++ ":" ++ toString w.backendPort)
      = ((pods.filter (fun pod => decide (pod.Phase = "Running" ∧ pod.PodIP ≠ ""))).map
          (fun pod => pod.PodIP)).count ip) ∧
    (S.Nodup ↔
      ((pods.filter (fun pod => decide (pod.Phase = "Running" ∧ pod.PodIP ≠ ""))).map
        (fun pod => pod.PodIP)).Nodup) := by
  have hS : S = sortStrings (extractBackends w.backendPort pods) := by
    simp only [updateBackendList] at hsent
    split_ifs at hsent
    simpa using hsent.symm
  have hperm : S.Perm (extractBackends w.backendPort pods) := by
    rw [hS]; exact sortStrings_perm _
  have hinj : Function.Injective (fun ip : String => sprintfBackend ip w.backendPort) :=
    fun a b h => sprintfBackend_injective w.backendPort a b h
  have hmap : extractBackends w.backendPort pods
      = ((pods.filter (fun pod => decide (pod.Phase = "Running" ∧ pod.PodIP ≠ ""))).map
          (fun pod => pod.PodIP)).map (fun ip : String => sprintfBackend ip w.backendPort) := by
    rw [extractBackends_eq, List.map_map]
    rfl
  refine ⟨hS, hperm, ?_, ?_, ?_⟩
  · rw [hperm.length_eq, hmap, List.length_map, List.length_map]
  · intro ip
    rw [hperm.count_eq, hmap]
    exact List.count_map_of_injective _ _ hinj ip
  · rw [hperm.nodup_iff, hmap]
    exact List.nodup_map_iff hinj

/-- C12 (amended) on three pods, two of them Running with distinct IPs: the list sent is
sorted, has two entries and no duplicates. -/
theorem C12_sent_one_entry_per_pod_witness :
    (updateBackendList (New 3333)
      (.ok [⟨"Running", "10.0.0.3"⟩, ⟨"Pending", "10.0.0.2"⟩, ⟨"Running", "10.0.0.1"⟩])).sent
      = some ["10.0.0.1:3333", "10.0.0.3:3333"] ∧
    (["10.0.0.1:3333", "10.0.0.3:3333"] : List String).length = 2 ∧
    (["10.0.0.1:3333", "10.0.0.3:3333"] : List String).Nodup := by
  have h := C12_sent_one_entry_per_pod (New 3333)
    [⟨"Running", "10.0.0.3"⟩, ⟨"Pending", "10.0.0.2"⟩, ⟨"Running", "10.0.0.1"⟩]
    ["10.0.0.1:3333", "10.0.0.3:3333"] (by decide)
  exact ⟨by decide, h.2.2.1.trans (by decide), h.2.2.2.2.mpr (by decide)⟩

/-- The three outcomes of updateBackendList on a successful listing, by whether the
sorted addresses equal the sorted previous baseline and whether the channel has room. -/
theorem updateBackendList_ok (w : Watcher) (pods : List Pod) :
    updateBackendList w (.ok pods) =
      if sortStrings (extractBackends w.backendPort pods) = sortStrings w.lastBackends then
        { watcher := { w with lastBackends := sortStrings w.lastBackends }, err := none,
          sent := none, skipped := false }
      else if w.backendsChan.length < 10 then
        { watcher := { w with lastBackends := sortStrings (extractBackends w.backendPort pods),
                              backendsChan := w.backendsChan
                                ++ [sortStrings (extractBackends w.backendPort pods)] },
          err := none, sent := some (sortStrings (extractBackends w.backendPort pods)),
          skipped := false }
      else
        { watcher := { w with lastBackends := sortStrings (extractBackends w.backendPort pods) },
          err := none, sent := none, skipped := true } := by
  simp only [updateBackendList, equal_iff, backendsChanCap]
  by_cases h : sortStrings (extractBackends w.backendPort pods) = sortStrings w.lastBackends
  · rw [if_neg (by simpa using h), if_pos h]
  · rw [if_pos (by simpa using h), if_neg h]

/-- C13 as stated fails when the backend set is empty: a new watcher that reconciles twice
with a list holding only a Pending pod sends nothing at all, not one set. -/
theorem C13_counterexample :
    sortStrings (extractBackends 3333 [⟨"Pending", "10.0.0.2"⟩])
      = sortStrings (extractBackends 3333 [⟨"Pending", "10.0.0.2"⟩]) ∧
    emissions
      [updateBackendList (New 3333) (.ok [⟨"Pending", "10.0.0.2"⟩]),
       updateBackendList (updateBackendList (New 3333) (.ok [⟨"Pending", "10.0.0.2"⟩])).watcher
         (.ok [⟨"Pending", "10.0.0.2"⟩])] = 0 := by
  decide

/-- C13 (amended): for all pod lists L1 and L2 that give the same sorted backend list and
for a newly created watcher, reconciling with L1 and then with L2 (whatever was received
from the channel in between) sends exactly one backend set when that set is non-empty, the
one sent by the first reconciliation, and sends nothing when it is empty. -/
theorem C13_one_emission_if_nonempty (port : Int) (L1 L2 : List Pod)
    (q : List (List String))
    (hsame : sortStrings (extractBackends port L1) = sortStrings (extractBackends port L2)) :
    emissions
      [updateBackendList (New port) (.ok L1),
       updateBackendList
         { (updateBackendList (New port) (.ok L1)).watcher with backendsChan := q }
         (.ok L2)]
      = (if extractBackends port L1 = [] then 0 else 1) ∧
    (extractBackends port L1 ≠ [] →
      (updateBackendList (New port) (.ok L1)).sent
        = some (sortStrings (extractBackends port L1))) ∧
    (updateBackendList
        { (updateBackendList (New port) (.ok L1)).watcher with backendsChan := q }
        (.ok L2)).sent = none := by
  have hnil : sortStrings ([] : List String) = [] := rfl
  have hempty : sortStrings (extractBackends port L1) = [] ↔ extractBackends port L1 = [] := by
    constructor
    · intro h
      have := (sortStrings_perm (extractBackends port L1)).length_eq
      rw [h] at this
      exact List.length_eq_zero.mp this.symm
    · intro h; rw [h]; rfl
  by_cases he : extractBackends port L1 = []
  · have hs : sortStrings (extractBackends port L1) = [] := hempty.mpr he
    have h1 : updateBackendList (New port) (.ok L1) =
        { watcher := { backendPort := port, lastBackends := [], backendsChan := [] },
          err := none, sent := none, skipped := false } := by
      rw [updateBackendList_ok]
      simp [New, hs, hnil]
    have h2 : updateBackendList { backendPort := port, lastBackends := [], backendsChan := q }
        (.ok L2) =
        { watcher := { backendPort := port, lastBackends := [], backendsChan := q },
          err := none, sent := none, skipped := false } := by
      rw [updateBackendList_ok]
      simp [← hsame, hs, hnil]
    rw [h1]
    simp only []
    rw [h2]
    simp [emissions, he]
  · have hs : ¬ sortStrings (extractBackends port L1) = [] := fun h => he (hempty.mp h)
    have h1 : updateBackendList (New port) (.ok L1) =
        { watcher := { backendPort := port,
                       lastBackends := sortStrings (extractBackends port L1),
                       backendsChan := [sortStrings (extractBackends port L1)] },
          err := none, sent := some (sortStrings (extractBackends port L1)),
          skipped := false } := by
      rw [updateBackendList_ok]
      simp [New, hs, hnil]
    have h2 : updateBackendList
        { backendPort := port, lastBackends := sortStrings (extractBackends port L1),
          backendsChan := q } (.ok L2) =
        { watcher := { backendPort := port,
                       lastBackends := sortStrings (extractBackends port L1),
                       backendsChan := q },
          err := none, sent := none, skipped := false } := by
      rw [updateBackendList_ok]
      simp [← hsame, sortStrings_idem]
    rw [h1]
    simp only []
    rw [h2]
    simp [emissions, he]

/-- C13 (amended) on two listings of the same Running pod with a Pending pod in different
positions: one set is sent, by the first reconciliation, also when the consumer has
emptied the channel in between. -/
theorem C13_one_emission_if_nonempty_witness :
    emissions
      [updateBackendList (New 3333) (.ok [⟨"Running", "10.0.0.1"⟩, ⟨"Pending", "10.0.0.2"⟩]),
       updateBackendList
         { (updateBackendList (New 3333)
              (.ok [⟨"Running", "10.0.0.1"⟩, ⟨"Pending", "10.0.0.2"⟩])).watcher with
           backendsChan := [] }
         (.ok [⟨"Pending", "10.0.0.2"⟩, ⟨"Running", "10.0.0.1"⟩])] = 1 :=
  (C13_one_emission_if_nonempty 3333 [⟨"Running", "10.0.0.1"⟩, ⟨"Pending", "10.0.0.2"⟩]
    [⟨"Pending", "10.0.0.2"⟩, ⟨"Running", "10.0.0.1"⟩] [] (by decide)).1.trans (by decide)

/-- C14: for every watcher whose previous baseline is sorted (as it is from New on) and
every successfully listed pod list, with S the sorted list of extracted addresses: if S
equals the baseline, nothing is sent and the watcher is unchanged; if S differs, the
baseline becomes S, S is appended to the channel when fewer than 10 values wait in it, and
a full channel is left unchanged (the value is dropped) while the baseline still becomes
S. No error is returned and the new baseline is sorted again. -/
theorem C14_reconcile_frame (w : Watcher) (pods : List Pod)
    (hsorted : w.lastBackends.Sorted stringLE) :
    (sortStrings (extractBackends w.backendPort pods) = w.lastBackends →
      (updateBackendList w (.ok pods)).watcher = w ∧
      (updateBackendList w (.ok pods)).sent = none ∧
      (updateBackendList w (.ok pods)).skipped = false) ∧
    (sortStrings (extractBackends w.backendPort pods) ≠ w.lastBackends →
      (updateBackendList w (.ok pods)).watcher.lastBackends
        = sortStrings (extractBackends w.backendPort pods) ∧
      (w.backendsChan.length < 10 →
        (updateBackendList w (.ok pods)).watcher.backendsChan
          = w.backendsChan ++ [sortStrings (extractBackends w.backendPort pods)] ∧
        (updateBackendList w (.ok pods)).sent
          = some (sortStrings (extractBackends w.backendPort pods)) ∧
        (updateBackendList w (.ok pods)).skipped = false) ∧
      (¬ w.backendsChan.length < 10 →
        (updateBackendList w (.ok pods)).watcher.backendsChan = w.backendsChan ∧
        (updateBackendList w (.ok pods)).sent = none ∧
        (updateBackendList w (.ok pods)).skipped = true)) ∧
    (updateBackendList w (.ok pods)).err = none ∧
    (updateBackendList w (.ok pods)).watcher.backendPort = w.backendPort ∧
    (updateBackendList w (.ok pods)).watcher.lastBackends.Sorted stringLE ∧
    (New w.backendPort).lastBackends.Sorted stringLE := by
  have hl : sortStrings w.lastBackends = w.lastBackends := sortStrings_of_sorted hsorted
  have hS := sortStrings_sorted (extractBackends w.backendPort pods)
  rw [updateBackendList_ok, hl]
  refine ⟨?_, ?_, ?_, ?_, ?_, ?_⟩
  · intro h
    rw [if_pos h]
    exact ⟨rfl, rfl, rfl⟩
  · intro h
    rw [if_neg h]
    refine ⟨?_, ?_, ?_⟩
    · split_ifs <;> rfl
    · intro hq
      rw [if_pos hq]
      exact ⟨rfl, rfl, rfl⟩
    · intro hq
      rw [if_neg hq]
      exact ⟨rfl, rfl, rfl⟩
  · split_ifs <;> rfl
  · split_ifs <;> rfl
  · split_ifs
    · exact hsorted
    · exact hS
    · exact hS
  · exact List.sorted_nil

/-- C14 on a watcher whose baseline is ["10.0.0.1:3333"] and whose channel is full with
ten values: listing a second Running pod moves the baseline to both addresses, sends
nothing and leaves the ten values as they are. -/
theorem C14_reconcile_frame_witness :
    (updateBackendList
      { backendPort := 3333, lastBackends := ["10.0.0.1:3333"],
        backendsChan := List.replicate 10 ["10.0.0.1:3333"] }
      (.ok [⟨"Running", "10.0.0.1"⟩, ⟨"Running", "10.0.0.3"⟩])).watcher.lastBackends
      = ["10.0.0.1:3333", "10.0.0.3:3333"] ∧
    (updateBackendList
      { backendPort := 3333, lastBackends := ["10.0.0.1:3333"],
        backendsChan := List.replicate 10 ["10.0.0.1:3333"] }
      (.ok [⟨"Running", "10.0.0.1"⟩, ⟨"Running", "10.0.0.3"⟩])).watcher.backendsChan
      = List.replicate 10 ["10.0.0.1:3333"] ∧
    (updateBackendList
      { backendPort := 3333, lastBackends := ["10.0.0.1:3333"],
        backendsChan := List.replicate 10 ["10.0.0.1:3333"] }
      (.ok [⟨"Running", "10.0.0.1"⟩, ⟨"Running", "10.0.0.3"⟩])).sent = none := by
  have h := C14_reconcile_frame
    { backendPort := 3333, lastBackends := ["10.0.0.1:3333"],
      backendsChan := List.replicate 10 ["10.0.0.1:3333"] }
    [⟨"Running", "10.0.0.1"⟩, ⟨"Running", "10.0.0.3"⟩] (by simp)
  have h2 := h.2.1 (by decide)
  have h3 := h2.2.2 (by decide)
  exact ⟨h2.1.trans (by decide), h3.1, h3.2.1⟩

/-- C15: for every watcher and all pod lists L1 and L2 that are permutations of each
other, reconciling with L1 and reconciling with L2 from the same state give the same
result (the same decision, the same list sent, the same new baseline and channel); a list
that is sent is sorted in ascending string order; and reconciling with L2 right after L1
(whatever was received from the channel in between) sends nothing and skips nothing. -/
theorem C15_permutation_invariant (w : Watcher) (L1 L2 : List Pod) (q : List (List String))
    (hperm : L1.Perm L2) :
    updateBackendList w (.ok L1) = updateBackendList w (.ok L2) ∧
    (∀ S, (updateBackendList w (.ok L1)).sent = some S → S.Sorted stringLE) ∧
    (updateBackendList w (.ok L1)).watcher.lastBackends
      = sortStrings (extractBackends w.backendPort L1) ∧
    (updateBackendList { (updateBackendList w (.ok L1)).watcher with backendsChan := q }
      (.ok L2)).sent = none ∧
    (updateBackendList { (updateBackendList w (.ok L1)).watcher with backendsChan := q }
      (.ok L2)).skipped = false ∧
    (updateBackendList { (updateBackendList w (.ok L1)).watcher with backendsChan := q }
      (.ok L2)).watcher.lastBackends
      = (updateBackendList w (.ok L1)).watcher.lastBackends := by
  have hsame : sortStrings (extractBackends w.backendPort L1)
      = sortStrings (extractBackends w.backendPort L2) :=
    sortStrings_eq_of_perm (extractBackends_perm w.backendPort hperm)
  have hbase : (updateBackendList w (.ok L1)).watcher.lastBackends
      = sortStrings (extractBackends w.backendPort L1) := by
    rw [updateBackendList_ok]
    split_ifs with h1 h2
    · exact h1.symm
    · rfl
    · rfl
  have hport : (updateBackendList w (.ok L1)).watcher.backendPort = w.backendPort := by
    rw [updateBackendList_ok]
    split_ifs <;> rfl
  have hsecond : updateBackendList
      { (updateBackendList w (.ok L1)).watcher with backendsChan := q } (.ok L2) =
      { watcher := { backendPort := w.backendPort,
                     lastBackends := sortStrings (extractBackends w.backendPort L1),
                     backendsChan := q },
        err := none, sent := none, skipped := false } := by
    rw [updateBackendList_ok]
    simp only [hbase, hport, ← hsame, sortStrings_idem, if_true]
  refine ⟨?_, ?_, hbase, ?_, ?_, ?_⟩
  · rw [updateBackendList_ok, updateBackendList_ok, hsame]
  · intro S hS
    rw [updateBackendList_ok] at hS
    split_ifs at hS
    have : S = sortStrings (extractBackends w.backendPort L1) := by simpa using hS.symm
    rw [this]
    exact sortStrings_sorted _
  · rw [hsecond]
  · rw [hsecond]
  · rw [hsecond, hbase]

/-- C15 on a listing of two Running pods and the same listing reversed, from a new
watcher: both send ["10.0.0.1:3333", "10.0.0.3:3333"], and the reversed listing right
after the first sends nothing. -/
theorem C15_permutation_invariant_witness :
    (updateBackendList (New 3333) (.ok [⟨"Running", "10.0.0.3"⟩, ⟨"Running", "10.0.0.1"⟩])).sent
      = some ["10.0.0.1:3333", "10.0.0.3:3333"] ∧
    updateBackendList (New 3333) (.ok [⟨"Running", "10.0.0.3"⟩, ⟨"Running", "10.0.0.1"⟩])
      = updateBackendList (New 3333) (.ok [⟨"Running", "10.0.0.1"⟩, ⟨"Running", "10.0.0.3"⟩]) ∧
    (updateBackendList
      { (updateBackendList (New 3333)
          (.ok [⟨"Running", "10.0.0.3"⟩, ⟨"Running", "10.0.0.1"⟩])).watcher with
        backendsChan := [["10.0.0.1:3333", "10.0.0.3:3333"]] }
      (.ok [⟨"Running", "10.0.0.1"⟩, ⟨"Running", "10.0.0.3"⟩])).sent = none := by
  have h := C15_permutation_invariant (New 3333)
    [⟨"Running", "10.0.0.3"⟩, ⟨"Running", "10.0.0.1"⟩]
    [⟨"Running", "10.0.0.1"⟩, ⟨"Running", "10.0.0.3"⟩]
    [["10.0.0.1:3333", "10.0.0.3:3333"]] (List.Perm.swap _ _ _)
  exact ⟨by decide, h.1, h.2.2.2.1⟩

end podwatcher

namespace traefik

/-! ## The configuration document -/

theorem buildServers_foldl (backends : List String) :
    ∀ acc : List Value,
      backends.foldl
        (fun servers backend => servers ++ [Value.obj [("address", .str backend)]]) acc
      = acc ++ backends.map (fun backend => Value.obj [("address", .str backend)]) := by
  induction backends with
  | nil => intro acc; simp
  | cons x xs ih => intro acc; rw [List.foldl_cons, ih]; simp

theorem buildServers_eq_map (backends : List String) :
    buildServers backends
      = backends.map (fun backend => Value.obj [("address", .str backend)]) := by
  unfold buildServers
  rw [buildServers_foldl]
  simp

theorem addressList_map (backends : List String) :
    addressList (backends.map (fun backend => Value.obj [("address", .str backend)]))
      = some backends := by
  induction backends with
  | nil => rfl
  | cons x xs ih =>
    simp only [List.map_cons, addressList, ih, Value.address]

theorem servers_buildConfig (b : Backend) (backends : List String) :
    (buildConfig b backends).servers b.serviceName = some (buildServers backends) := by
  simp [Value.servers, buildConfig, Value.get, List.lookup]

/-- C16: for every publisher configuration (routerName, serviceName, lbMethod) and every
backend list B, the document built by updateBackendsInternal, which is the body of its
PUT request, is exactly the documented tree with one server entry {"address": b} per
element of B in the order of B; its server list has length |B|, reading the addresses back
from it yields B, and an empty B gives an empty list that is present. -/
theorem C16_document_shape (b : Backend) (B : List String) :
    buildConfig b B
      = .obj [("tcp", .obj [
          ("routers", .obj [
            (b.routerName, .obj [
              ("entryPoints", .arr [.str "tcp"]),
              ("rule", .str "HostSNI(`*`)"),
              ("service", .str b.serviceName)])]),
          ("services", .obj [
            (b.serviceName, .obj [
              ("loadBalancer", .obj [
                ("method", .str b.lbMethod),
                ("servers", .arr (B.map (fun a => Value.obj [("address", .str a)])))])])])])] ∧
    (putRequest b B).body = some (buildConfig b B) ∧
    (buildConfig b B).servers b.serviceName
      = some (B.map (fun a => Value.obj [("address", .str a)])) ∧
    ((buildConfig b B).servers b.serviceName).map List.length = some B.length ∧
    (buildConfig b B).addresses b.serviceName = some B ∧
    (buildConfig b []).servers b.serviceName = some [] := by
  have hs := servers_buildConfig b B
  rw [buildServers_eq_map] at hs
  refine ⟨?_, rfl, hs, ?_, ?_, ?_⟩
  · simp only [buildConfig, buildServers_eq_map]
  · rw [hs]
    simp
  · simp only [Value.addresses, hs]
    exact addressList_map B
  · exact servers_buildConfig b []

/-! ## Status codes -/

theorem updateBackendsInternal_ok (b : Backend) (B : List String) (env : Env)
    (resp : Response) (hm : env.marshalErr = none) (hr : env.newRequestErr = none)
    (hdo : env.Do (putRequest b B) = .ok resp) :
    updateBackendsInternal b B env =
      if resp.StatusCode ≠ 200 ∧ resp.StatusCode ≠ 201 then
        some ("unexpected status code " ++ toString resp.StatusCode ++ ": " ++ resp.Body)
      else none := by
  simp only [updateBackendsInternal, hm, hr, hdo]

theorem UpdateBackends_passed (b : Backend) (B : List String) (env : Env) (t1 t2 : Int)
    (calls : Nat) (hpass : (circuitbreaker.beforeRequest b.circuitBreaker t1).2.2 = none) :
    (UpdateBackends b B env t1 t2 calls).backend.circuitBreaker
      = circuitbreaker.afterRequest (circuitbreaker.beforeRequest b.circuitBreaker t1).1 t2
          (circuitbreaker.beforeRequest b.circuitBreaker t1).2.1
          (updateBackendsInternal b B env).isNone ∧
    (UpdateBackends b B env t1 t2 calls).err
      = (updateBackendsInternal b B env).map circuitbreaker.Error.ofReq ∧
    (UpdateBackends b B env t1 t2 calls).calls = calls + 1 := by
  have hb : circuitbreaker.beforeRequest b.circuitBreaker t1
      = ((circuitbreaker.beforeRequest b.circuitBreaker t1).1,
          (circuitbreaker.beforeRequest b.circuitBreaker t1).2.1, none) := by
    rw [← hpass]
  have := circuitbreaker.Execute_of_pass b.circuitBreaker _ _ t1 t2
    (fun n => (circuitbreaker.Outcome.returns (updateBackendsInternal b B env), n + 1))
    calls (updateBackendsInternal b B env) (calls + 1) hb rfl
  refine ⟨?_, ?_, ?_⟩ <;> simp [UpdateBackends, this]

/-- C17: for every backend list and every HTTP response received for the PUT (the
document was marshalled, the request was built, no transport error),
updateBackendsInternal returns nil exactly when the status code is 200 or 201; for every
other status code, 204 included, it returns the error "unexpected status code <code>:
<body>", whose text holds the status code and the response body; and when the call went
through the breaker, UpdateBackends returns that error and the breaker is the one
afterRequest(generation, false) leaves: the failure is recorded by onFailure whenever the
generation of the call is still the current one. -/
theorem C17_status_decides (b : Backend) (B : List String) (env : Env) (resp : Response)
    (t1 t2 : Int) (calls : Nat)
    (hm : env.marshalErr = none) (hr : env.newRequestErr = none)
    (hdo : env.Do (putRequest b B) = .ok resp) :
    (updateBackendsInternal b B env = none ↔ resp.StatusCode = 200 ∨ resp.StatusCode = 201) ∧
    (¬ (resp.StatusCode = 200 ∨ resp.StatusCode = 201) →
      updateBackendsInternal b B env
        = some ("unexpected status code " ++ toString resp.StatusCode ++ ": " ++ resp.Body) ∧
      ((circuitbreaker.beforeRequest b.circuitBreaker t1).2.2 = none →
        (UpdateBackends b B env t1 t2 calls).err
          = some (.ofReq ("unexpected status code " ++ toString resp.StatusCode ++ ": "
              ++ resp.Body)) ∧
        (UpdateBackends b B env t1 t2 calls).calls = calls + 1 ∧
        (UpdateBackends b B env t1 t2 calls).backend.circuitBreaker
          = circuitbreaker.afterRequest (circuitbreaker.beforeRequest b.circuitBreaker t1).1 t2
              (circuitbreaker.beforeRequest b.circuitBreaker t1).2.1 false ∧
        ((circuitbreaker.currentState
            (circuitbreaker.beforeRequest b.circuitBreaker t1).1 t2).2.2
            = (circuitbreaker.beforeRequest b.circuitBreaker t1).2.1 →
          (UpdateBackends b B env t1 t2 calls).backend.circuitBreaker
            = circuitbreaker.onFailure
                (circuitbreaker.currentState
                  (circuitbreaker.beforeRequest b.circuitBreaker t1).1 t2).1
                (circuitbreaker.currentState
                  (circuitbreaker.beforeRequest b.circuitBreaker t1).1 t2).2.1 t2))) := by
  have hu := updateBackendsInternal_ok b B env resp hm hr hdo
  refine ⟨?_, ?_⟩
  · rw [hu]
    by_cases h : resp.StatusCode = 200 ∨ resp.StatusCode = 201
    · rw [if_neg (by omega)]
      simp [h]
    · rw [if_pos (by omega)]
      simp [h]
  · intro h
    have he : updateBackendsInternal b B env
        = some ("unexpected status code " ++ toString resp.StatusCode ++ ": " ++ resp.Body) := by
      rw [hu, if_pos (by omega)]
    refine ⟨he, ?_⟩
    intro hpass
    obtain ⟨a1, a2, a3⟩ := UpdateBackends_passed b B env t1 t2 calls hpass
    rw [he] at a1 a2
    refine ⟨a2, a3, a1, ?_⟩
    intro hg
    rw [a1, circuitbreaker.afterRequest_eq]
    have hg1 : ¬ (circuitbreaker.currentStateCB
        (circuitbreaker.beforeRequest b.circuitBreaker t1).1 t2).generation
          ≠ (circuitbreaker.beforeRequest b.circuitBreaker t1).2.1 := by
      intro hne
      exact hne hg
    rw [if_neg hg1]
    simp [circuitbreaker.currentState]

/-- C17 on the default publisher with a fresh breaker and a proxy that answers 204 with
the body "no content": the error names the code and the body, the operation ran once and
the breaker counts one failure. -/
theorem C17_status_decides_witness :
    updateBackendsInternal exampleBackend ["10.0.0.1:3333"] (answering 204 "no content")
      = some "unexpected status code 204: no content" ∧
    (UpdateBackends exampleBackend ["10.0.0.1:3333"] (answering 204 "no content") 1 2 0).err
      = some (.ofReq "unexpected status code 204: no content") ∧
    (UpdateBackends exampleBackend ["10.0.0.1:3333"] (answering 204 "no content") 1 2 0).calls
      = 1 ∧
    (UpdateBackends exampleBackend ["10.0.0.1:3333"] (answering 204 "no content") 1 2 0
      ).backend.circuitBreaker.counts.totalFailures = 1 := by
  have h := C17_status_decides exampleBackend ["10.0.0.1:3333"] (answering 204 "no content")
    ⟨204, "no content"⟩ 1 2 0 rfl rfl rfl
  have h2 := h.2 (by decide)
  have h3 := h2.2 (by decide)
  refine ⟨h2.1.trans (by decide), h3.1.trans (by decide), h3.2.1, ?_⟩
  rw [h3.2.2.1]
  decide

/-! ## The health probe -/

theorem append_ne_of_head (a e s : String) (h : a.data.head? ≠ s.data.head?)
    (ha : a.data ≠ []) : a ++ e ≠ s := by
  intro heq
  apply h
  rw [← heq, String.data_append]
  cases hd : a.data with
  | nil => exact absurd hd ha
  | cons c cs => simp

/-- C18: for every publisher, whatever the state of its circuit breaker, HealthCheck
leaves the publisher and so the breaker (state, generation, counts) unchanged, returns the
same result under any other breaker, never returns one of the two breaker rejection
texts, and, when the GET request was built and answered, returns nil exactly when the
status code is 200 or 405. -/
theorem C18_healthCheck_outside_breaker (b : Backend) (env : Env)
    (cb : circuitbreaker.CircuitBreaker) :
    (HealthCheck b env).1.circuitBreaker = b.circuitBreaker ∧
    (HealthCheck b env).1.circuitBreaker.state = b.circuitBreaker.state ∧
    (HealthCheck b env).1.circuitBreaker.generation = b.circuitBreaker.generation ∧
    (HealthCheck b env).1.circuitBreaker.counts = b.circuitBreaker.counts ∧
    (HealthCheck { b with circuitBreaker := cb } env).2 = (HealthCheck b env).2 ∧
    (HealthCheck b env).2 ≠ some "circuit breaker is open" ∧
    (HealthCheck b env).2 ≠ some "circuit breaker is half-open and max requests reached" ∧
    (∀ resp, env.newRequestErr = none → env.Do (getRequest b) = .ok resp →
      ((HealthCheck b env).2 = none ↔ resp.StatusCode = 200 ∨ resp.StatusCode = 405)) := by
  have hb : (HealthCheck b env).1 = b := by
    simp only [HealthCheck]
    split
    · rfl
    · split
      · rfl
      · split_ifs <;> rfl
  have hreject : ∀ s : String, s.data.head? = some 'c' → (HealthCheck b env).2 ≠ some s := by
    intro s hs
    simp only [HealthCheck]
    split
    · simp only [ne_eq, Option.some.injEq]
      exact append_ne_of_head _ _ _ (by rw [hs]; decide) (by decide)
    · split
      · simp only [ne_eq, Option.some.injEq]
        exact append_ne_of_head _ _ _ (by rw [hs]; decide) (by decide)
      · split_ifs
        · simp only [ne_eq, Option.some.injEq]
          exact append_ne_of_head _ _ _ (by rw [hs]; decide) (by decide)
        · simp
  have hind : (HealthCheck { b with circuitBreaker := cb } env).2 = (HealthCheck b env).2 := by
    simp only [HealthCheck, getRequest]
    cases env.newRequestErr with
    | some e => rfl
    | none =>
      simp only
      cases env.Do { method := "GET", url := b.apiURL, header := [], body := none } with
      | error e => rfl
      | ok resp => simp only; split_ifs <;> rfl
  refine ⟨by rw [hb], by rw [hb], by rw [hb], by rw [hb], hind, hreject _ (by decide),
    hreject _ (by decide), ?_⟩
  intro resp hr hdo
  simp only [HealthCheck, hr, hdo]
  by_cases h : resp.StatusCode = 200 ∨ resp.StatusCode = 405
  · rw [if_neg (by omega)]
    simp [h]
  · rw [if_pos (by omega)]
    simp [h]

/-- C18 on the default publisher with its breaker Open and a proxy that answers 405: the
health check returns nil and the breaker is still the Open one. -/
theorem C18_healthCheck_outside_breaker_witness :
    (HealthCheck { exampleBackend with circuitBreaker := circuitbreaker.scenarioOpen 4 }
      (answering 405 "")).2 = none ∧
    (HealthCheck { exampleBackend with circuitBreaker := circuitbreaker.scenarioOpen 4 }
      (answering 405 "")).1.circuitBreaker = circuitbreaker.scenarioOpen 4 := by
  have h := C18_healthCheck_outside_breaker
    { exampleBackend with circuitBreaker := circuitbreaker.scenarioOpen 4 }
    (answering 405 "") (circuitbreaker.scenarioOpen 4)
  exact ⟨(h.2.2.2.2.2.2.2 ⟨405, ""⟩ rfl rfl).mpr (Or.inr rfl), h.1⟩

end traefik

namespace config

/-- C19: for every Config value c, c.Validate() returns an error exactly when
c.PodLabels is empty, or c.TraefikAPIURL is empty, or c.PodNamespace is empty, or
c.BackendPort is outside 1..65535, or c.UpdateInterval is less than one second; otherwise
it returns nil. -/
theorem C19_validate_iff (c : Config) :
    (c.Validate ≠ none ↔
      (c.PodLabels = "" ∨ c.TraefikAPIURL = "" ∨ c.PodNamespace = "" ∨
        ¬ (1 ≤ c.BackendPort ∧ c.BackendPort ≤ 65535) ∨ c.UpdateInterval < 1000000000)) ∧
    (c.Validate = none ↔
      ¬ (c.PodLabels = "" ∨ c.TraefikAPIURL = "" ∨ c.PodNamespace = "" ∨
        ¬ (1 ≤ c.BackendPort ∧ c.BackendPort ≤ 65535) ∨ c.UpdateInterval < 1000000000)) := by
  have key : c.Validate = none ↔
      ¬ (c.PodLabels = "" ∨ c.TraefikAPIURL = "" ∨ c.PodNamespace = "" ∨
        ¬ (1 ≤ c.BackendPort ∧ c.BackendPort ≤ 65535) ∨ c.UpdateInterval < 1000000000) := by
    simp only [Config.Validate, Second]
    split_ifs with h1 h2 h3 h4 h5
    · simp [h1]
    · simp [h2]
    · simp [h3]
    · simp only [reduceCtorEq, false_iff, not_not]
      right; right; right; left
      omega
    · simp only [reduceCtorEq, false_iff, not_not]
      right; right; right; right
      exact h5
    · simp only [true_iff]
      push_neg
      exact ⟨h1, h2, h3, by omega, by omega⟩
  exact ⟨by rw [ne_eq, key, not_not], key⟩

end config

namespace podwatcher

/-! ## Watch events -/

/-- C21 as stated fails for two of the five kinds: on an Error event and on a Bookmark
event handleWatchEvent makes no call of updateBackendList, although the listing offered
holds a Running pod that a re-list would have sent. -/
theorem C21_counterexample :
    (handleWatchEvent (New 3333) .Error (.ok [⟨"Running", "10.0.0.1"⟩])).relists = 0 ∧
    (handleWatchEvent (New 3333) .Bookmark (.ok [⟨"Running", "10.0.0.1"⟩])).relists = 0 ∧
    (handleWatchEvent (New 3333) .Error (.ok [⟨"Running", "10.0.0.1"⟩])).sent = none ∧
    (handleWatchEvent (New 3333) .Added (.ok [⟨"Running", "10.0.0.1"⟩])).sent
      = some ["10.0.0.1:3333"] := by
  decide

/-- C21 (amended): in event-driven mode handleWatchEvent performs a full re-list, one call
of updateBackendList whose result it takes over, for every Added, Modified and Deleted
event; for a Bookmark or an Error event it performs no re-list and leaves the watcher as
it is (an Error event is only logged). -/
theorem C21_relist_on_pod_events (w : Watcher) (eventType : EventType)
    (listed : Except String (List Pod)) :
    ((handleWatchEvent w eventType listed).relists = 1 ↔
      (eventType = .Added ∨ eventType = .Modified ∨ eventType = .Deleted)) ∧
    ((handleWatchEvent w eventType listed).relists = 0 ↔
      (eventType = .Bookmark ∨ eventType = .Error)) ∧
    ((eventType = .Added ∨ eventType = .Modified ∨ eventType = .Deleted) →
      (handleWatchEvent w eventType listed).watcher = (updateBackendList w listed).watcher ∧
      (handleWatchEvent w eventType listed).sent = (updateBackendList w listed).sent ∧
      (handleWatchEvent w eventType listed).errSent = (updateBackendList w listed).err) ∧
    ((eventType = .Bookmark ∨ eventType = .Error) →
      (handleWatchEvent w eventType listed).watcher = w ∧
      (handleWatchEvent w eventType listed).sent = none ∧
      (handleWatchEvent w eventType listed).errSent = none) ∧
    ((handleWatchEvent w eventType listed).loggedErrorEvent = true ↔ eventType = .Error) := by
  cases eventType <;> simp [handleWatchEvent]

/-- C21 (amended) on a new watcher and a listing with one Running pod: a Modified event
re-lists once and sends the address, a Bookmark event does nothing. -/
theorem C21_relist_on_pod_events_witness :
    (handleWatchEvent (New 3333) .Modified (.ok [⟨"Running", "10.0.0.1"⟩])).relists = 1 ∧
    (handleWatchEvent (New 3333) .Modified (.ok [⟨"Running", "10.0.0.1"⟩])).sent
      = (updateBackendList (New 3333) (.ok [⟨"Running", "10.0.0.1"⟩])).sent ∧
    (handleWatchEvent (New 3333) .Bookmark (.ok [⟨"Running", "10.0.0.1"⟩])).watcher
      = New 3333 := by
  have h1 := C21_relist_on_pod_events (New 3333) .Modified (.ok [⟨"Running", "10.0.0.1"⟩])
  have h2 := C21_relist_on_pod_events (New 3333) .Bookmark (.ok [⟨"Running", "10.0.0.1"⟩])
  exact ⟨h1.1.mpr (Or.inr (Or.inl rfl)), (h1.2.2.1 (Or.inr (Or.inl rfl))).2.1,
    (h2.2.2.2.1 (Or.inl rfl)).1⟩

end podwatcher

namespace circuitbreaker

/-! ## Runs of failures -/

theorem hasFailureRun_replicate_lt (n c : Nat) (h : c < n) :
    ¬ hasFailureRun n (List.replicate c false) := by
  rintro ⟨s, t, he⟩
  have := congrArg List.length he
  simp at this
  omega

theorem hasFailureRun_of_suffix (n : Nat) (pre bs : List Bool) (h : hasFailureRun n bs) :
    hasFailureRun n (pre ++ bs) := by
  obtain ⟨s, t, he⟩ := h
  exact ⟨pre ++ s, t, by rw [he]; simp⟩

theorem hasFailureRun_after_success (n c : Nat) (bs : List Bool) (hn : 1 ≤ n) (hc : c < n) :
    hasFailureRun n (List.replicate c false ++ true :: bs) ↔ hasFailureRun n bs := by
  constructor
  · rintro ⟨s, t, he⟩
    have he2 : List.replicate c false ++ true :: bs = s ++ (List.replicate n false ++ t) := by
      rw [he]; simp
    rcases List.append_eq_append_iff.mp he2 with ⟨a, h1, h2⟩ | ⟨a, h1, h2⟩
    · -- s = replicate c false ++ a, true :: bs = a ++ (replicate n false ++ t)
      cases a with
      | nil =>
        simp only [List.nil_append] at h2
        obtain ⟨m, rfl⟩ : ∃ m, n = m + 1 := ⟨n - 1, by omega⟩
        simp [List.replicate_succ] at h2
      | cons x a =>
        simp only [List.cons_append, List.cons.injEq] at h2
        exact ⟨a, t, by rw [h2.2]; simp⟩
    · -- replicate c false = s ++ a, replicate n false ++ t = a ++ true :: bs
      have hlen : a.length ≤ c := by
        have := congrArg List.length h1
        simp at this
        omega
      have hget := congrArg (fun l => l[a.length]?) h2
      simp only at hget
      rw [List.getElem?_append_left (by simp; omega)] at hget
      rw [List.getElem?_append_right (le_refl _)] at hget
      simp only [Nat.sub_self, List.getElem?_cons_zero] at hget
      rw [List.getElem?_replicate] at hget
      split_ifs at hget
      cases hget
  · intro h
    exact hasFailureRun_of_suffix n (List.replicate c false ++ [true]) bs h |> fun h' => by
      simpa using h'

theorem hasFailureRun_at_threshold (n c : Nat) (bs : List Bool) (hc : c + 1 = n) :
    hasFailureRun n (List.replicate c false ++ false :: bs) :=
  ⟨[], bs, by rw [← hc, List.replicate_succ']; simp⟩

theorem replicate_append_failure (c : Nat) (bs : List Bool) :
    List.replicate c false ++ false :: bs = List.replicate (c + 1) false ++ bs := by
  rw [List.replicate_succ']
  simp

theorem run_cons (cb : CircuitBreaker) (e : Event) (es : List Event) :
    run cb (e :: es) = run (step cb e) es := rfl

theorem tripped_current (g : Nat) (cb : CircuitBreaker) (now : Int) (h : tripped g cb) :
    tripped g (currentStateCB cb now) := by
  rcases h with ⟨hs, hg⟩ | ⟨hs, hg⟩
  · by_cases hl : cb.expiry < now
    · rw [currentStateCB_open_late cb now hs hl]
      right
      refine ⟨rfl, ?_⟩
      simp only [hg]
      omega
    · rw [currentStateCB_open_early cb now hs (by omega)]
      exact Or.inl ⟨hs, hg⟩
  · rw [currentStateCB_halfOpen cb now hs]
    exact Or.inr ⟨hs, hg⟩

theorem tripped_generation_ne (g : Nat) (cb : CircuitBreaker) (h : tripped g cb) :
    cb.generation ≠ g := by
  rcases h with ⟨_, hg⟩ | ⟨_, hg⟩ <;> omega

theorem tripped_step (g : Nat) (cb : CircuitBreaker) (e : Event) (h : tripped g cb)
    (he : ∀ now before success, e = .record now before success → before = g) :
    tripped g (step cb e) := by
  cases e with
  | request now =>
    have hc := tripped_current g cb now h
    obtain ⟨b1, b2, _⟩ := beforeRequest_generation cb now
    simp only [step]
    unfold tripped at hc ⊢
    rw [b1, b2]
    exact hc
  | record now before success =>
    have hb : before = g := he now before success rfl
    have hc := tripped_current g cb now h
    simp only [step]
    rw [afterRequest_eq, if_pos (by rw [hb]; exact tripped_generation_ne g _ hc)]
    exact hc

theorem tripped_run (g : Nat) (es : List Event) :
    ∀ cb : CircuitBreaker, tripped g cb →
      (∀ e ∈ es, ∀ now before success, e = .record now before success → before = g) →
      tripped g (run cb es) := by
  induction es with
  | nil => intro cb h _; exact h
  | cons e es ih =>
    intro cb h he
    simp only [run, List.foldl_cons]
    exact ih (step cb e) (tripped_step g cb e h (he e (List.mem_cons_self _ _)))
      (fun d hd => he d (List.mem_cons_of_mem _ hd))

theorem tripped_not_closed (g : Nat) (cb : CircuitBreaker) (h : tripped g cb) :
    cb.state ≠ .StateClosed := by
  rcases h with ⟨hs, _⟩ | ⟨hs, _⟩ <;> rw [hs] <;> decide

theorem inWindow_record_generation (expiry : Int) (g : Nat) (es : List Event)
    (hwin : ∀ e ∈ es, e.inWindow expiry g) :
    ∀ e ∈ es, ∀ now before success, e = .record now before success → before = g := by
  intro e he now before success heq
  have := hwin e he
  rw [heq] at this
  exact this.2

theorem onFailure_closed_trip (cb : CircuitBreaker) (now : Int) (hs : cb.state = .StateClosed)
    (h : cb.consecutiveFailures ≤ (cb.counts.consecutiveFailures + 1) % 4294967296) :
    tripped cb.generation (onFailure cb .StateClosed now) := by
  left
  simp [onFailure, setState, toNewGeneration, hs, h]

theorem onFailure_closed_below (cb : CircuitBreaker) (now : Int)
    (h : ¬ cb.consecutiveFailures ≤ (cb.counts.consecutiveFailures + 1) % 4294967296) :
    onFailure cb .StateClosed now =
      { cb with counts :=
        { cb.counts with
          totalFailures := (cb.counts.totalFailures + 1) % 4294967296
          consecutiveFailures := (cb.counts.consecutiveFailures + 1) % 4294967296
          consecutiveSuccesses := 0 } } := by
  simp [onFailure, h]

/-- Inside one Closed window, a breaker whose consecutive-failure count `c` is below the
threshold `n` is still Closed after a history exactly when `c` failures followed by the
recorded outcomes hold no run of `n` failures. -/
theorem closed_history (es : List Event) :
    ∀ cb : CircuitBreaker, cb.state = .StateClosed →
      cb.consecutiveFailures < 4294967296 →
      cb.counts.consecutiveFailures < cb.consecutiveFailures →
      (∀ e ∈ es, e.inWindow cb.expiry cb.generation) →
      ((run cb es).state = .StateClosed ↔
        ¬ hasFailureRun cb.consecutiveFailures
            (List.replicate cb.counts.consecutiveFailures false ++ outcomes es)) := by
  induction es with
  | nil =>
    intro cb hs _ hc _
    simp only [run, List.foldl_nil, outcomes, List.append_nil, hs, true_iff]
    exact hasFailureRun_replicate_lt _ _ hc
  | cons e es ih =>
    intro cb hs hty hc hwin
    have hw := hwin e (List.mem_cons_self _ _)
    have hrest : ∀ d ∈ es, d.inWindow cb.expiry cb.generation :=
      fun d hd => hwin d (List.mem_cons_of_mem _ hd)
    rw [run_cons]
    cases e with
    | request now =>
      have hstep : step cb (.request now) = admitted cb := by
        simp only [step, beforeRequest_closed cb now hs hw]
      rw [hstep]
      simp only [outcomes]
      exact ih (admitted cb) hs hty hc hrest
    | record now before success =>
      obtain ⟨hno, hbefore⟩ := hw
      have ha := afterRequest_closed cb now success hs hno
      cases success with
      | true =>
        have hstep : step cb (.record now before true) =
            { cb with counts :=
              { cb.counts with
                totalSuccesses := (cb.counts.totalSuccesses + 1) % 4294967296
                consecutiveSuccesses := (cb.counts.consecutiveSuccesses + 1) % 4294967296
                consecutiveFailures := 0 } } := by
          simp only [step, hbefore, ha, if_true]
          exact onSuccess_closed cb now
        rw [hstep]
        have := ih { cb with counts :=
          { cb.counts with
            totalSuccesses := (cb.counts.totalSuccesses + 1) % 4294967296
            consecutiveSuccesses := (cb.counts.consecutiveSuccesses + 1) % 4294967296
            consecutiveFailures := 0 } } hs hty (by simp only; omega) hrest
        simp only [List.replicate_zero, List.nil_append] at this
        simp only [outcomes]
        exact this.trans (not_congr (hasFailureRun_after_success _ _ _ (by omega) hc).symm)
      | false =>
        have hstep0 : step cb (.record now before false) = onFailure cb .StateClosed now := by
          simp only [step, hbefore, ha, Bool.false_eq_true, if_false]
        rw [hstep0]
        simp only [outcomes]
        by_cases htrip : cb.consecutiveFailures ≤ (cb.counts.consecutiveFailures + 1) % 4294967296
        · have ht := onFailure_closed_trip cb now hs htrip
          have hrun := tripped_run cb.generation es _ ht
            (inWindow_record_generation cb.expiry cb.generation es hrest)
          have hcn : cb.counts.consecutiveFailures + 1 = cb.consecutiveFailures := by omega
          constructor
          · intro hclosed
            exact absurd hclosed (tripped_not_closed _ _ hrun)
          · intro hno
            exact absurd (hasFailureRun_at_threshold _ _ _ hcn) hno
        · rw [onFailure_closed_below cb now htrip]
          have hmod : (cb.counts.consecutiveFailures + 1) % 4294967296
              = cb.counts.consecutiveFailures + 1 := by omega
          have := ih { cb with counts :=
            { cb.counts with
              totalFailures := (cb.counts.totalFailures + 1) % 4294967296
              consecutiveFailures := (cb.counts.consecutiveFailures + 1) % 4294967296
              consecutiveSuccesses := 0 } } hs hty (by simp only; omega) hrest
          simp only [hmod] at this ⊢
          rw [replicate_append_failure]
          exact this

/-- C22: for every breaker with consecutive-failure threshold n ≥ 1 (a uint32) that is
Closed with zero counts, and every history of admissions and recorded outcomes inside one
Closed window (no clock reading rolls the window over, every outcome is that of a call
admitted in this generation): the breaker is still Closed after the history exactly when
the recorded outcomes contain no run of n failures in a row; and in a Closed window every
recorded success leaves the consecutive-failure count at zero and every recorded failure
leaves the consecutive-success count at zero. -/
theorem C22_closed_iff_no_failure_run (cb : CircuitBreaker) (es : List Event)
    (hn : 1 ≤ cb.consecutiveFailures) (hty : cb.consecutiveFailures < 4294967296)
    (hs : cb.state = .StateClosed) (hz : cb.counts = {})
    (hwin : ∀ e ∈ es, e.inWindow cb.expiry cb.generation) :
    ((run cb es).state = .StateClosed ↔
      ¬ hasFailureRun cb.consecutiveFailures (outcomes es)) ∧
    (∀ (c : CircuitBreaker) (now : Int), c.state = .StateClosed → noRollover c now →
      (afterRequest c now c.generation true).counts.consecutiveFailures = 0 ∧
      (afterRequest c now c.generation false).counts.consecutiveSuccesses = 0) := by
  constructor
  · have h := closed_history es cb hs hty (by rw [hz]; exact hn) hwin
    rw [hz] at h
    simpa using h
  · intro c now hc hw
    constructor
    · rw [afterRequest_closed c now true hc hw, if_pos rfl, onSuccess_closed]
    · rw [afterRequest_closed c now false hc hw, if_neg (by decide)]
      by_cases htrip : c.consecutiveFailures ≤ (c.counts.consecutiveFailures + 1) % 4294967296
      · simp [onFailure, setState, toNewGeneration, hc, htrip]
      · rw [onFailure_closed_below c now htrip]

/-- C22 at New(3, 1s, 1s, 2) created at clock 0 (generation 1): the outcomes failure,
success, failure, each recorded after its admission, leave the breaker Closed. -/
theorem C22_closed_iff_no_failure_run_witness :
    outcomes [.request 1, .record 2 1 false, .request 3, .record 4 1 true, .request 5,
      .record 6 1 false] = [false, true, false] ∧
    (run (New 3 1000000000 1000000000 2 0)
      [.request 1, .record 2 1 false, .request 3, .record 4 1 true, .request 5,
       .record 6 1 false]).state = .StateClosed := by
  have h := C22_closed_iff_no_failure_run (New 3 1000000000 1000000000 2 0)
    [.request 1, .record 2 1 false, .request 3, .record 4 1 true, .request 5,
     .record 6 1 false] (by decide) (by decide) rfl rfl (by decide)
  refine ⟨rfl, h.1.mpr ?_⟩
  have h1 : outcomes [.request 1, .record 2 1 false, .request 3, .record 4 1 true, .request 5,
      .record 6 1 false] = List.replicate 1 false ++ true :: List.replicate 1 false := rfl
  have h2 : (New 3 1000000000 1000000000 2 0).consecutiveFailures = 2 := rfl
  rw [h1, h2, hasFailureRun_after_success 2 1 _ (by decide) (by decide)]
  exact hasFailureRun_replicate_lt 2 1 (by decide)

/-! ## The counts in reachable states -/

theorem currentStateCB_same_or_fresh (cb : CircuitBreaker) (now : Int) :
    currentStateCB cb now = cb ∨
    ((currentStateCB cb now).counts = {} ∧
      (currentStateCB cb now).generation = (cb.generation + 1) % 18446744073709551616) := by
  by_cases h1 : cb.state = .StateClosed ∧ cb.expiry ≠ 0 ∧ cb.expiry < now
  · obtain ⟨_, a2, a3⟩ := currentStateCB_rollover cb now h1.1 h1.2.1 h1.2.2
    exact Or.inr ⟨a3, a2⟩
  · by_cases h2 : cb.state = .StateOpen ∧ cb.expiry < now
    · rw [currentStateCB_open_late cb now h2.1 h2.2]
      exact Or.inr ⟨rfl, rfl⟩
    · exact Or.inl (currentStateCB_otherwise cb now h1 h2)

theorem countsInv_fresh (cb c1 : CircuitBreaker) (F : List Nat)
    (hF : ∀ g ∈ F, g ≤ cb.generation) (hc : c1.counts = {})
    (hg : c1.generation = cb.generation + 1) : countsInv c1 F := by
  have hnot : c1.generation ∉ F := by
    intro hm
    have := hF _ hm
    omega
  have hcount : F.count c1.generation = 0 := List.count_eq_zero_of_not_mem hnot
  unfold countsInv
  rw [hc, hcount]
  refine ⟨by simp, by simp, by simp, Or.inl rfl, ?_⟩
  intro g hm
  have := hF g hm
  omega

theorem countsInv_current (cb : CircuitBreaker) (F : List Nat) (now : Int)
    (h : countsInv cb F) (hg : cb.generation + 1 < 18446744073709551616) :
    countsInv (currentStateCB cb now) F := by
  rcases currentStateCB_same_or_fresh cb now with he | ⟨hc, hgen⟩
  · rw [he]; exact h
  · exact countsInv_fresh cb _ F h.2.2.2.2 hc (by rw [hgen]; omega)

theorem countsInv_admitted (c : CircuitBreaker) (F : List Nat) (h : countsInv c F)
    (hr : c.counts.requests < 4294967295) : countsInv (admitted c) (c.generation :: F) := by
  obtain ⟨h1, h2, h3, h4, h5⟩ := h
  unfold countsInv admitted
  simp only [List.count_cons_self, List.mem_cons]
  refine ⟨by omega, h2, h3, h4, ?_⟩
  rintro g (rfl | hm)
  · exact le_refl _
  · exact h5 g hm

theorem countsInv_erase_ne (c : CircuitBreaker) (F : List Nat) (before : Nat)
    (h : countsInv c F) (hne : c.generation ≠ before) : countsInv c (F.erase before) := by
  obtain ⟨h1, h2, h3, h4, h5⟩ := h
  refine ⟨?_, h2, h3, h4, fun g hm => h5 g (List.mem_of_mem_erase hm)⟩
  rw [List.count_erase_of_ne hne]
  exact h1

theorem onSuccess_same_or_fresh (c : CircuitBreaker) (st : State) (now : Int) :
    onSuccess c st now =
        { c with counts :=
          { c.counts with
            totalSuccesses := (c.counts.totalSuccesses + 1) % 4294967296
            consecutiveSuccesses := (c.counts.consecutiveSuccesses + 1) % 4294967296
            consecutiveFailures := 0 } } ∨
    ((onSuccess c st now).counts = {} ∧
      (onSuccess c st now).generation = (c.generation + 1) % 18446744073709551616) := by
  unfold onSuccess setState toNewGeneration
  simp only
  split_ifs <;> first | exact Or.inl rfl | exact Or.inr ⟨rfl, rfl⟩

theorem onFailure_same_or_fresh (c : CircuitBreaker) (st : State) (now : Int) :
    onFailure c st now =
        { c with counts :=
          { c.counts with
            totalFailures := (c.counts.totalFailures + 1) % 4294967296
            consecutiveFailures := (c.counts.consecutiveFailures + 1) % 4294967296
            consecutiveSuccesses := 0 } } ∨
    ((onFailure c st now).counts = {} ∧
      (onFailure c st now).generation = (c.generation + 1) % 18446744073709551616) := by
  unfold onFailure setState toNewGeneration
  simp only
  split_ifs <;> first | exact Or.inl rfl | exact Or.inr ⟨rfl, rfl⟩

theorem countsInv_onSuccess (c : CircuitBreaker) (st : State) (F : List Nat) (now : Int)
    (h : countsInv c F) (hm : c.generation ∈ F) (hr : c.counts.requests < 4294967296)
    (hg : c.generation + 1 < 18446744073709551616) :
    countsInv (onSuccess c st now) (F.erase c.generation) := by
  obtain ⟨h1, h2, h3, h4, h5⟩ := h
  have hpos : 1 ≤ F.count c.generation := List.one_le_count_iff.mpr hm
  have herase : (F.erase c.generation).count c.generation = F.count c.generation - 1 :=
    List.count_erase_self _ _
  have hF : ∀ g ∈ F.erase c.generation, g ≤ c.generation :=
    fun g hg => h5 g (List.mem_of_mem_erase hg)
  rcases onSuccess_same_or_fresh c st now with he | ⟨hc, hgen⟩
  · rw [he]
    unfold countsInv
    simp only
    rw [herase]
    refine ⟨by omega, by omega, by omega, ?_, hF⟩
    simp
  · exact countsInv_fresh c _ _ hF hc (by rw [hgen]; omega)

theorem countsInv_onFailure (c : CircuitBreaker) (st : State) (F : List Nat) (now : Int)
    (h : countsInv c F) (hm : c.generation ∈ F) (hr : c.counts.requests < 4294967296)
    (hg : c.generation + 1 < 18446744073709551616) :
    countsInv (onFailure c st now) (F.erase c.generation) := by
  obtain ⟨h1, h2, h3, h4, h5⟩ := h
  have hpos : 1 ≤ F.count c.generation := List.one_le_count_iff.mpr hm
  have herase : (F.erase c.generation).count c.generation = F.count c.generation - 1 :=
    List.count_erase_self _ _
  have hF : ∀ g ∈ F.erase c.generation, g ≤ c.generation :=
    fun g hg => h5 g (List.mem_of_mem_erase hg)
  rcases onFailure_same_or_fresh c st now with he | ⟨hc, hgen⟩
  · rw [he]
    unfold countsInv
    simp only
    rw [herase]
    refine ⟨by omega, by omega, by omega, ?_, hF⟩
    simp
  · exact countsInv_fresh c _ _ hF hc (by rw [hgen]; omega)

theorem currentStateCB_noOverflow (cb : CircuitBreaker) (now : Int) (h : noOverflow cb) :
    (currentStateCB cb now).counts.requests < 4294967295 ∧
    (currentStateCB cb now).generation + 1 < 18446744073709551616 := by
  obtain ⟨h1, h2⟩ := h
  rcases currentStateCB_same_or_fresh cb now with he | ⟨hc, hgen⟩
  · rw [he]; exact ⟨h1, by omega⟩
  · rw [hc, hgen]
    exact ⟨by decide, by omega⟩

theorem countsInv_trackedStep (cb : CircuitBreaker) (F : List Nat) (e : Event)
    (p : CircuitBreaker × List Nat) (h : countsInv cb F) (hno : noOverflow cb)
    (hstep : trackedStep cb F e = some p) : countsInv p.1 p.2 := by
  have hcur : ∀ now, countsInv (currentStateCB cb now) F :=
    fun now => countsInv_current cb F now h (by have := hno.2; omega)
  cases e with
  | request now =>
    obtain ⟨hr, _⟩ := currentStateCB_noOverflow cb now hno
    by_cases hO : (currentStateCB cb now).state = .StateOpen
    · have hb : beforeRequest cb now = (currentStateCB cb now,
          (currentStateCB cb now).generation, some "circuit breaker is open") := by
        rw [beforeRequest_eq, if_pos hO]
      simp only [trackedStep, hb, reduceCtorEq, if_false, Option.some.injEq] at hstep
      rw [← hstep]
      exact hcur now
    · by_cases hQ : (currentStateCB cb now).state = .StateHalfOpen ∧
          (currentStateCB cb now).counts.requests ≥ (currentStateCB cb now).maxRequests
      · have hb : beforeRequest cb now = (currentStateCB cb now,
            (currentStateCB cb now).generation,
            some "circuit breaker is half-open and max requests reached") := by
          rw [beforeRequest_eq, if_neg hO, if_pos hQ]
        simp only [trackedStep, hb, reduceCtorEq, if_false, Option.some.injEq] at hstep
        rw [← hstep]
        exact hcur now
      · have hb : beforeRequest cb now = (admitted (currentStateCB cb now),
            (currentStateCB cb now).generation, none) := by
          rw [beforeRequest_eq, if_neg hO, if_neg hQ]
        simp only [trackedStep, hb, if_true, Option.some.injEq] at hstep
        rw [← hstep]
        exact countsInv_admitted _ F (hcur now) hr
  | record now before success =>
    obtain ⟨hr, hg⟩ := currentStateCB_noOverflow cb now hno
    simp only [trackedStep] at hstep
    split_ifs at hstep with hmem
    cases hstep
    simp only
    rw [afterRequest_eq]
    by_cases hne : (currentStateCB cb now).generation ≠ before
    · rw [if_pos hne]
      exact countsInv_erase_ne _ F before (hcur now) hne
    · have heq : (currentStateCB cb now).generation = before := by
        by_contra hcon
        exact hne hcon
      rw [if_neg hne, ← heq]
      have hm : (currentStateCB cb now).generation ∈ F := by rw [heq]; exact hmem
      split_ifs
      · exact countsInv_onSuccess _ _ F now (hcur now) hm (by omega) hg
      · exact countsInv_onFailure _ _ F now (hcur now) hm (by omega) hg

theorem countsInv_tracked (es : List Event) :
    ∀ (cb : CircuitBreaker) (F : List Nat) (p : CircuitBreaker × List Nat),
      countsInv cb F → tracked cb F es = some p → countsInv p.1 p.2 ∧ p.1 = run cb es := by
  induction es with
  | nil =>
    intro cb F p h ht
    simp only [tracked, Option.some.injEq] at ht
    rw [← ht]
    exact ⟨h, rfl⟩
  | cons e es ih =>
    intro cb F p h ht
    simp only [tracked] at ht
    split_ifs at ht with hno
    cases hs : trackedStep cb F e with
    | none => rw [hs] at ht; cases ht
    | some q =>
      rw [hs] at ht
      simp only at ht
      have hq := countsInv_trackedStep cb F e q h hno hs
      obtain ⟨a1, a2⟩ := ih q.1 q.2 p hq ht
      refine ⟨a1, ?_⟩
      rw [a2, run_cons]
      have hq1 : q.1 = step cb e := by
        cases e with
        | request now =>
          simp only [trackedStep] at hs
          split_ifs at hs <;> cases hs <;> rfl
        | record now before success =>
          simp only [trackedStep] at hs
          split_ifs at hs
          cases hs
          rfl
      rw [hq1]

/-- C23: in every state that the breaker New(maxRequests, interval, timeout,
consecutiveFailures) reaches by a history of steps, each of them an admission, a rejection,
or the recording of the outcome of a call that was admitted and not recorded before, at any
clock readings, along which no counter wraps (the counts behave as natural numbers):
totalSuccesses + totalFailures ≤ requests, even together with the calls of the current
generation still in flight; consecutiveSuccesses ≤ totalSuccesses; consecutiveFailures ≤
totalFailures; and at most one of consecutiveSuccesses and consecutiveFailures is
non-zero. -/
theorem C23_counts_invariant (maxRequests : Nat) (interval timeout : Int)
    (consecutiveFailures : Nat) (t0 : Int) (es : List Event) (cb : CircuitBreaker)
    (inFlight : List Nat)
    (hreach : tracked (New maxRequests interval timeout consecutiveFailures t0) [] es
      = some (cb, inFlight)) :
    cb = run (New maxRequests interval timeout consecutiveFailures t0) es ∧
    cb.counts.totalSuccesses + cb.counts.totalFailures ≤ cb.counts.requests ∧
    cb.counts.consecutiveSuccesses ≤ cb.counts.totalSuccesses ∧
    cb.counts.consecutiveFailures ≤ cb.counts.totalFailures ∧
    (cb.counts.consecutiveSuccesses = 0 ∨ cb.counts.consecutiveFailures = 0) ∧
    cb.counts.totalSuccesses + cb.counts.totalFailures + inFlight.count cb.generation
      ≤ cb.counts.requests := by
  have h0 : countsInv (New maxRequests interval timeout consecutiveFailures t0) [] := by
    unfold countsInv
    simp [New, toNewGeneration]
  obtain ⟨⟨h1, h2, h3, h4, _⟩, hrun⟩ := countsInv_tracked es _ [] (cb, inFlight) h0 hreach
  simp only at h1 h2 h3 h4 hrun
  exact ⟨hrun, by omega, h2, h3, h4, h1⟩

/-- C23 at New(2, 1s, 1s, 2) created at clock 0: two calls are admitted at clocks 1 and 2
before either is recorded, then a success and a failure are recorded; the counts are
requests 2, totals 1 and 1, consecutive successes 0 and consecutive failures 1. -/
theorem C23_counts_invariant_witness :
    (run (New 2 1000000000 1000000000 2 0)
      [.request 1, .request 2, .record 3 1 true, .record 4 1 false]).counts
      = { requests := 2, totalSuccesses := 1, totalFailures := 1, consecutiveSuccesses := 0,
          consecutiveFailures := 1 } ∧
    (run (New 2 1000000000 1000000000 2 0)
      [.request 1, .request 2, .record 3 1 true, .record 4 1 false]).counts.totalSuccesses
      + (run (New 2 1000000000 1000000000 2 0)
      [.request 1, .request 2, .record 3 1 true, .record 4 1 false]).counts.totalFailures
      ≤ (run (New 2 1000000000 1000000000 2 0)
      [.request 1, .request 2, .record 3 1 true, .record 4 1 false]).counts.requests := by
  have h := C23_counts_invariant 2 1000000000 1000000000 2 0
    [.request 1, .request 2, .record 3 1 true, .record 4 1 false]
    (run (New 2 1000000000 1000000000 2 0)
      [.request 1, .request 2, .record 3 1 true, .record 4 1 false]) [] (by decide)
  exact ⟨by decide, h.2.1⟩

end circuitbreaker
